import Mathlib

/-!
Verification development for the Rust_LockSPL token-vesting program.

The Rust sources (src/instruction.rs, src/state.rs, src/processor.rs,
src/error.rs) are shallowly embedded below: machine integers become `Nat`
with explicit `% 2 ^ 64` where wrap-around matters, byte buffers become
`List Nat`, fallible code returns `Except ProgErr`, and the host-provided
collaborators (program-address derivation, SPL token account decoding, the
clock sysvar, and the invoked transfer primitives) are supplied through an
`Env` record so that theorems quantify over every possible environment.
A Rust `panic!` (out-of-bounds index or `Option::unwrap` on `None`) is a
distinguished outcome `ProgErr.panicked`, kept separate from every
`ProgramError` the program can return.
-/

/-- The error outcomes a call can end in.  `invalidInstruction` is the
program's own custom error (`LockTokenError::InvalidInstruction`); the
rest are the `solana_program::program_error::ProgramError` variants the
processor returns; `panicked` marks a Rust panic (never a returned
error). -/
inductive ProgErr where
  | invalidInstruction
  | invalidArgument
  | invalidAccountData
  | insufficientFunds
  | invalidInstructionData
  | uninitializedAccount
  | externalError
  | panicked
deriving DecidableEq

deriving instance DecidableEq for Except

/-- A 32-byte public key, as its byte list. -/
abbrev Pubkey := List Nat

def wfPubkey (p : Pubkey) : Prop := p.length = 32 ∧ ∀ b ∈ p, b < 256

instance (p : Pubkey) : Decidable (wfPubkey p) := by
  unfold wfPubkey; infer_instance

/-- Little-endian byte encoding of `n` on `k` bytes (`u32::to_le_bytes`,
`u64::to_le_bytes` are the cases `k = 4`, `k = 8`). -/
def leBytes : Nat → Nat → List Nat
  | 0, _ => []
  | k + 1, n => n % 256 :: leBytes k (n / 256)

/-- Little-endian byte decoding (`uN::from_le_bytes`). -/
def fromLeBytes : List Nat → Nat
  | [] => 0
  | b :: bs => b + 256 * fromLeBytes bs

def u64ToLe (n : Nat) : List Nat := leBytes 8 n

def u32ToLe (n : Nat) : List Nat := leBytes 4 n

theorem length_leBytes (k n : Nat) : (leBytes k n).length = k := by
  induction k generalizing n with
  | zero => rfl
  | succ k ih => simp [leBytes, ih]

theorem fromLeBytes_leBytes (k n : Nat) :
    fromLeBytes (leBytes k n) = n % 256 ^ k := by
  induction k generalizing n with
  | zero => simp [leBytes, fromLeBytes, Nat.mod_one]
  | succ k ih =>
      simp only [leBytes, fromLeBytes, ih]
      rw [pow_succ', Nat.mod_mul]

theorem fromLeBytes_leBytes_of_lt {k n : Nat} (h : n < 256 ^ k) :
    fromLeBytes (leBytes k n) = n := by
  rw [fromLeBytes_leBytes, Nat.mod_eq_of_lt h]

theorem leBytes_fromLeBytes {k : Nat} {bs : List Nat} (hl : bs.length = k)
    (hb : ∀ b ∈ bs, b < 256) : leBytes k (fromLeBytes bs) = bs := by
  induction k generalizing bs with
  | zero => simp_all [List.length_eq_zero, leBytes]
  | succ k ih =>
      match bs with
      | b :: rest =>
          have hbl : b < 256 := hb b (by simp)
          have hr : ∀ x ∈ rest, x < 256 := fun x hx => hb x (by simp [hx])
          simp only [fromLeBytes, leBytes]
          have h0 : (b + 256 * fromLeBytes rest) % 256 = b := by omega
          have h1 : (b + 256 * fromLeBytes rest) / 256 = fromLeBytes rest := by
            omega
          rw [h0, h1, ih (by simpa using hl) hr]

theorem fromLeBytes_lt {bs : List Nat} (hb : ∀ b ∈ bs, b < 256) :
    fromLeBytes bs < 256 ^ bs.length := by
  induction bs with
  | nil => simp [fromLeBytes]
  | cons b rest ih =>
      have hbl : b < 256 := hb b (by simp)
      have hr := ih (fun x hx => hb x (by simp [hx]))
      simp only [fromLeBytes, List.length_cons, pow_succ]
      calc b + 256 * fromLeBytes rest < 256 + 256 * fromLeBytes rest := by omega
        _ ≤ 256 * 256 ^ rest.length := by omega
        _ = 256 ^ rest.length * 256 := by ring

theorem leBytes_all_lt (k n : Nat) : ∀ b ∈ leBytes k n, b < 256 := by
  induction k generalizing n with
  | zero => simp [leBytes]
  | succ k ih =>
      intro b hm
      simp only [leBytes, List.mem_cons] at hm
      rcases hm with h | h
      · omega
      · exact ih _ b h

/-- `slice.get(a..b)` on a Rust slice: `some` of the sub-slice when
`a ≤ b ≤ len`, `none` otherwise. -/
def sliceGet (l : List Nat) (a b : Nat) : Option (List Nat) :=
  if a ≤ b ∧ b ≤ l.length then some ((l.drop a).take (b - a)) else none

theorem sliceGet_exact (pre mid post : List Nat) :
    sliceGet (pre ++ (mid ++ post)) pre.length (pre.length + mid.length) =
      some mid := by
  unfold sliceGet
  rw [if_pos]
  · rw [Nat.add_sub_cancel_left]
    rw [List.drop_left, List.take_left]
  · constructor
    · omega
    · simp [List.length_append]

theorem sliceGet_of_le (l : List Nat) (a b : Nat) (hab : a ≤ b)
    (hb : b ≤ l.length) : sliceGet l a b = some ((l.drop a).take (b - a)) := by
  unfold sliceGet
  rw [if_pos ⟨hab, hb⟩]

/-- Overwrite `bytes.length` bytes of `target` starting at `offset`
(the functional rendering of `pack_into_slice` into
`&mut target[offset..]`). -/
def write_bytes (target : List Nat) (offset : Nat) (bytes : List Nat) :
    List Nat :=
  target.take offset ++ bytes ++ target.drop (offset + bytes.length)

/-- `u64::checked_add` (both operands already reduced mod `2 ^ 64`). -/
def checked_add_u64 (a b : Nat) : Option Nat :=
  if a + b < 2 ^ 64 then some (a + b) else none

/-- The `i64 as u64` cast (two's-complement reinterpretation). -/
def i64_as_u64 (i : Int) : Nat := (i % (2 ^ 64 : Int)).toNat

/-! ## Instruction codec (src/instruction.rs) -/

/-- `Schedule` from src/instruction.rs. -/
structure Schedule where
  release_time : Nat
  amount : Nat
deriving DecidableEq

def SCHEDULE_SIZE : Nat := 16

/-- `LockTokenInstruction` from src/instruction.rs. -/
inductive LockTokenInstruction where
  | init (seeds : List Nat) (number_of_schedules : Nat)
  | create (seeds : List Nat) (mint_address : Pubkey)
      (destination_token_address : Pubkey) (schedules : List Schedule)
  | unlock (seeds : List Nat)
  | transferLocks (seeds : List Nat)
  | extendLockDuration (seeds : List Nat) (index : Nat) (release_time : Nat)
  | pauseContract (is_pause : Bool)
  | setFeeParams (price_estimator : Pubkey) (usd_token_address : Pubkey)
      (fees_in_usd : Nat) (company_wallet : Pubkey)
  | setFeesInUSD (fees_in_usd : Nat)
  | setCompanyWallet (company_wallet : Pubkey)
  | setFreeToken (mint_address : Pubkey) (is_free : Bool)
  | transferOwnership
deriving DecidableEq

/-- The schedule-reading loop of `unpack`'s tag-1 arm: reads `n` entries
at increasing offsets of `rest`. -/
def parseSchedules (rest : List Nat) (offset : Nat) :
    Nat → Except ProgErr (List Schedule)
  | 0 => .ok []
  | n + 1 =>
    match sliceGet rest offset (offset + 8) with
    | none => .error .invalidInstruction
    | some rt =>
      match sliceGet rest (offset + 8) (offset + 16) with
      | none => .error .invalidInstruction
      | some amt =>
        match parseSchedules rest (offset + SCHEDULE_SIZE) n with
        | .error e => .error e
        | .ok tail =>
            .ok ({ release_time := fromLeBytes rt,
                   amount := fromLeBytes amt } :: tail)

/-- `LockTokenInstruction::unpack`.  Faithful to the source, including the
`.unwrap()` applied to the 32-byte `seeds` read under tags 0–4: a payload
shorter than 32 bytes there is a panic (`.error .panicked`), not an
`InvalidInstruction` error. -/
def LockTokenInstruction.unpack (input : List Nat) :
    Except ProgErr LockTokenInstruction :=
  match input with
  | [] => .error .invalidInstruction
  | tag :: rest =>
    match tag with
    | 0 =>
      match sliceGet rest 0 32 with
      | none => .error .panicked
      | some seeds =>
        match sliceGet rest 32 36 with
        | none => .error .invalidInstruction
        | some ns => .ok (.init seeds (fromLeBytes ns))
    | 1 =>
      match sliceGet rest 0 32 with
      | none => .error .panicked
      | some seeds =>
        match sliceGet rest 32 64 with
        | none => .error .invalidInstruction
        | some mint =>
          match sliceGet rest 64 96 with
          | none => .error .invalidInstruction
          | some dest =>
            match parseSchedules rest 96 ((rest.length - 96) / SCHEDULE_SIZE) with
            | .error e => .error e
            | .ok schedules => .ok (.create seeds mint dest schedules)
    | 2 =>
      match sliceGet rest 0 32 with
      | none => .error .panicked
      | some seeds => .ok (.unlock seeds)
    | 3 =>
      match sliceGet rest 0 32 with
      | none => .error .panicked
      | some seeds => .ok (.transferLocks seeds)
    | 4 =>
      match sliceGet rest 0 32 with
      | none => .error .panicked
      | some seeds =>
        match sliceGet rest 32 36 with
        | none => .error .invalidInstruction
        | some idx =>
          match sliceGet rest 36 44 with
          | none => .error .invalidInstruction
          | some rt => .ok (.extendLockDuration seeds (fromLeBytes idx) (fromLeBytes rt))
    | 5 =>
      match sliceGet rest 0 1 with
      | none => .error .invalidInstruction
      | some pb => .ok (.pauseContract (fromLeBytes pb == 1))
    | 6 =>
      match sliceGet rest 0 32 with
      | none => .error .invalidInstruction
      | some pe =>
        match sliceGet rest 32 64 with
        | none => .error .invalidInstruction
        | some usd =>
          match sliceGet rest 64 72 with
          | none => .error .invalidInstruction
          | some fees =>
            match sliceGet rest 72 104 with
            | none => .error .invalidInstruction
            | some cw => .ok (.setFeeParams pe usd (fromLeBytes fees) cw)
    | 7 =>
      match sliceGet rest 0 8 with
      | none => .error .invalidInstruction
      | some fees => .ok (.setFeesInUSD (fromLeBytes fees))
    | 8 =>
      match sliceGet rest 0 32 with
      | none => .error .invalidInstruction
      | some cw => .ok (.setCompanyWallet cw)
    | 9 =>
      match sliceGet rest 0 32 with
      | none => .error .invalidInstruction
      | some mint =>
        match sliceGet rest 32 33 with
        | none => .error .invalidInstruction
        | some fb => .ok (.setFreeToken mint (fromLeBytes fb == 1))
    | 10 => .ok .transferOwnership
    | _ => .error .invalidInstruction

/-- `bool as u8`. -/
def boolByte (b : Bool) : Nat := if b then 1 else 0

/-- `LockTokenInstruction::pack`. -/
def LockTokenInstruction.pack : LockTokenInstruction → List Nat
  | .init seeds n => 0 :: (seeds ++ u32ToLe n)
  | .create seeds mint dest schedules =>
      1 :: (seeds ++ (mint ++ (dest ++
        (schedules.map fun s => u64ToLe s.release_time ++ u64ToLe s.amount).flatten)))
  | .unlock seeds => 2 :: seeds
  | .transferLocks seeds => 3 :: seeds
  | .extendLockDuration seeds index rt =>
      4 :: (seeds ++ (u32ToLe index ++ u64ToLe rt))
  | .pauseContract p => [5, boolByte p]
  | .setFeeParams pe usd fees cw =>
      6 :: (pe ++ (usd ++ (u64ToLe fees ++ cw)))
  | .setFeesInUSD fees => 7 :: u64ToLe fees
  | .setCompanyWallet cw => 8 :: cw
  | .setFreeToken mint f => 9 :: (mint ++ [boolByte f])
  | .transferOwnership => [10]

def wfSchedule (s : Schedule) : Prop :=
  s.release_time < 2 ^ 64 ∧ s.amount < 2 ^ 64

instance (s : Schedule) : Decidable (wfSchedule s) := by
  unfold wfSchedule; infer_instance

def wfSeeds (s : List Nat) : Prop := s.length = 32 ∧ ∀ b ∈ s, b < 256

instance (s : List Nat) : Decidable (wfSeeds s) := by
  unfold wfSeeds; infer_instance

/-- Representability of an instruction: every field fits the Rust type it
embeds (`[u8; 32]`, `Pubkey`, `u32`, `u64`). -/
def wfInstruction : LockTokenInstruction → Prop
  | .init seeds n => wfSeeds seeds ∧ n < 2 ^ 32
  | .create seeds mint dest schedules =>
      wfSeeds seeds ∧ wfPubkey mint ∧ wfPubkey dest ∧
        ∀ s ∈ schedules, wfSchedule s
  | .unlock seeds => wfSeeds seeds
  | .transferLocks seeds => wfSeeds seeds
  | .extendLockDuration seeds index rt =>
      wfSeeds seeds ∧ index < 2 ^ 32 ∧ rt < 2 ^ 64
  | .pauseContract _ => True
  | .setFeeParams pe usd fees cw =>
      wfPubkey pe ∧ wfPubkey usd ∧ fees < 2 ^ 64 ∧ wfPubkey cw
  | .setFeesInUSD fees => fees < 2 ^ 64
  | .setCompanyWallet cw => wfPubkey cw
  | .setFreeToken mint _ => wfPubkey mint
  | .transferOwnership => True

instance (i : LockTokenInstruction) : Decidable (wfInstruction i) := by
  unfold wfInstruction
  cases i <;> infer_instance

/-! ## Ledger state records (src/state.rs) -/

/-- `OWNER_TOKEN_MINT_ADDRESS` from src/state.rs. -/
def OWNER_TOKEN_MINT_ADDRESS : String := "Token address"

/-- `String::from(OWNER_TOKEN_MINT_ADDRESS).as_bytes()` (ASCII bytes). -/
def owner_mint_seed : List Nat := OWNER_TOKEN_MINT_ADDRESS.toList.map Char.toNat

/-- `LockGlobalState` from src/state.rs. -/
structure LockGlobalState where
  price_estimator : Pubkey
  usd_token_address : Pubkey
  fees_in_usd : Nat
  company_wallet : Pubkey
  is_paused : Bool
  is_initialized : Bool
deriving DecidableEq

def LockGlobalState.LEN : Nat := 106

/-- The 106 bytes written by `LockGlobalState::pack_into_slice`. -/
def LockGlobalState.pack_bytes (s : LockGlobalState) : List Nat :=
  s.price_estimator ++ (s.usd_token_address ++ (u64ToLe s.fees_in_usd ++
    (s.company_wallet ++ [boolByte s.is_paused, boolByte s.is_initialized])))

/-- `LockGlobalState::unpack_from_slice`. -/
def LockGlobalState.unpack_from_slice (src : List Nat) :
    Except ProgErr LockGlobalState :=
  if src.length < LockGlobalState.LEN then .error .invalidAccountData
  else .ok
    { price_estimator := src.take 32
      usd_token_address := (src.drop 32).take 32
      fees_in_usd := fromLeBytes ((src.drop 64).take 8)
      company_wallet := (src.drop 72).take 32
      is_paused := src.getD 104 0 == 1
      is_initialized := src.getD 105 0 == 1 }

/-- `LockSchedule` from src/state.rs. -/
structure LockSchedule where
  release_time : Nat
  amount : Nat
deriving DecidableEq

def LockSchedule.LEN : Nat := 16

/-- The 16 bytes written by `LockSchedule::pack_into_slice`. -/
def LockSchedule.pack_bytes (s : LockSchedule) : List Nat :=
  u64ToLe s.release_time ++ u64ToLe s.amount

/-- `LockSchedule::unpack_from_slice`. -/
def LockSchedule.unpack_from_slice (src : List Nat) :
    Except ProgErr LockSchedule :=
  if src.length < 16 then .error .invalidAccountData
  else .ok
    { release_time := fromLeBytes (src.take 8)
      amount := fromLeBytes ((src.drop 8).take 8) }

/-- `LockScheduleHeader` from src/state.rs. -/
structure LockScheduleHeader where
  destination_address : Pubkey
  mint_address : Pubkey
  is_initialized : Bool
deriving DecidableEq

def LockScheduleHeader.LEN : Nat := 65

/-- The 65 bytes written by `LockScheduleHeader::pack_into_slice`. -/
def LockScheduleHeader.pack_bytes (s : LockScheduleHeader) : List Nat :=
  s.destination_address ++ (s.mint_address ++ [boolByte s.is_initialized])

/-- `LockScheduleHeader::unpack_from_slice`. -/
def LockScheduleHeader.unpack_from_slice (src : List Nat) :
    Except ProgErr LockScheduleHeader :=
  if src.length < LockScheduleHeader.LEN then .error .invalidAccountData
  else .ok
    { destination_address := src.take 32
      mint_address := (src.drop 32).take 32
      is_initialized := src.getD 64 0 == 1 }

/-- `TokenState` from src/state.rs. -/
structure TokenState where
  mint_address : Pubkey
  is_free : Bool
  is_initialized : Bool
deriving DecidableEq

def TokenState.LEN : Nat := 34

/-- The 34 bytes written by `TokenState::pack_into_slice`. -/
def TokenState.pack_bytes (s : TokenState) : List Nat :=
  s.mint_address ++ [boolByte s.is_free, boolByte s.is_initialized]

/-- `TokenState::unpack_from_slice`. -/
def TokenState.unpack_from_slice (src : List Nat) :
    Except ProgErr TokenState :=
  if src.length < TokenState.LEN then .error .invalidAccountData
  else .ok
    { mint_address := src.take 32
      is_free := src.getD 32 0 == 1
      is_initialized := src.getD 33 0 == 1 }

/-- `TokenState::estimate_fees_in_sol`: zero when `is_free` is false,
the flat amount 100 when it is true.  The global config is not an
argument. -/
def TokenState.estimate_fees_in_sol (s : TokenState) : Except ProgErr Nat :=
  if s.is_free = false then .ok 0 else .ok 100

/-- The counted loop inside `unpack_schedules`. -/
def unpack_schedules_loop (input : List Nat) (offset : Nat) :
    Nat → Except ProgErr (List LockSchedule)
  | 0 => .ok []
  | n + 1 =>
    match LockSchedule.unpack_from_slice
        ((input.drop offset).take LockSchedule.LEN) with
    | .error e => .error e
    | .ok s =>
      match unpack_schedules_loop input (offset + LockSchedule.LEN) n with
      | .error e => .error e
      | .ok tail => .ok (s :: tail)

/-- `unpack_schedules` from src/state.rs: reads `len / 16` entries. -/
def unpack_schedules (input : List Nat) : Except ProgErr (List LockSchedule) :=
  unpack_schedules_loop input 0 (input.length / LockSchedule.LEN)

/-- `pack_schedules_into_slice`: writes the entries contiguously from
offset 0 of `target`, leaving any trailing bytes unchanged. -/
def pack_schedules_into_slice (schedules : List LockSchedule)
    (target : List Nat) : List Nat :=
  write_bytes target 0 (schedules.map LockSchedule.pack_bytes).flatten

/-! ## `Pubkey::from_str` (base58 decoding, an external collaborator of
src/processor.rs's credential check) -/

/-- The bitcoin base58 alphabet used by the `bs58` crate. -/
def base58Alphabet : List Char :=
  "123456789ABCDEFGHJKLMNPQRSTUVWXYZabcdefghijkmnopqrstuvwxyz".toList

/-- Index of a character in the base58 alphabet, `none` when the
character is not in it. -/
def b58Digit (c : Char) : Option Nat :=
  base58Alphabet.findIdx? (fun x => x = c)

/-- Big-endian accumulation of base58 digits; fails on the first
character outside the alphabet (as `bs58::decode(..).into_vec()` does). -/
def b58DecodeLoop (acc : Nat) : List Char → Option Nat
  | [] => some acc
  | c :: cs =>
    match b58Digit c with
    | none => none
    | some d => b58DecodeLoop (acc * 58 + d) cs

def countLeadingOnes : List Char → Nat
  | [] => 0
  | c :: cs => if c = base58Alphabet.headI then countLeadingOnes cs + 1 else 0

/-- `Pubkey::from_str`: reject strings longer than the maximal base58
length, base58-decode (each leading alphabet-first character contributes
one leading zero byte), and require exactly 32 bytes. -/
def pubkey_from_str (s : String) : Option Pubkey :=
  if s.length > 44 then none
  else
    match b58DecodeLoop 0 s.toList with
    | none => none
    | some val =>
      let bytes :=
        List.replicate (countLeadingOnes s.toList) 0 ++
          (Nat.digits 256 val).reverse
      if bytes.length = 32 then some bytes else none

/-- The credential-mint constant is not valid base58 (it contains a
space), so `Pubkey::from_str` rejects it. -/
theorem pubkey_from_str_owner_mint_none :
    pubkey_from_str OWNER_TOKEN_MINT_ADDRESS = none := by
  rfl

/-! ## Positional byte-buffer lemmas -/

theorem sliceGet_at (l pre mid post : List Nat) (a b : Nat)
    (hl : l = pre ++ (mid ++ post)) (ha : a = pre.length)
    (hb : b = pre.length + mid.length) : sliceGet l a b = some mid := by
  subst hl ha hb
  exact sliceGet_exact pre mid post

theorem take_at (l pre post : List Nat) (n : Nat) (hl : l = pre ++ post)
    (hn : n = pre.length) : l.take n = pre := by
  subst hl hn
  exact List.take_left pre post

theorem drop_at (l pre post : List Nat) (n : Nat) (hl : l = pre ++ post)
    (hn : n = pre.length) : l.drop n = post := by
  subst hl hn
  exact List.drop_left pre post

theorem getD_at (l pre : List Nat) (x : Nat) (post : List Nat) (n : Nat)
    (hl : l = pre ++ (x :: post)) (hn : n = pre.length) : l.getD n 0 = x := by
  subst hl hn
  induction pre with
  | nil => rfl
  | cons a t ih => simpa [List.getD_cons_succ] using ih

theorem boolByte_eq_one (b : Bool) : (boolByte b == 1) = b := by
  cases b <;> rfl

theorem fromLeBytes_u64ToLe {n : Nat} (h : n < 2 ^ 64) :
    fromLeBytes (u64ToLe n) = n := by
  unfold u64ToLe
  apply fromLeBytes_leBytes_of_lt
  have he : (256 : Nat) ^ 8 = 2 ^ 64 := by norm_num
  rw [he]
  exact h

theorem fromLeBytes_u32ToLe {n : Nat} (h : n < 2 ^ 32) :
    fromLeBytes (u32ToLe n) = n := by
  unfold u32ToLe
  apply fromLeBytes_leBytes_of_lt
  have he : (256 : Nat) ^ 4 = 2 ^ 32 := by norm_num
  rw [he]
  exact h

theorem boolByte_lt (b : Bool) : boolByte b < 256 := by
  cases b <;> simp [boolByte]

/-! ## Record codec roundtrips -/

theorem lockSchedule_pack_length (s : LockSchedule) :
    (LockSchedule.pack_bytes s).length = 16 := by
  simp [LockSchedule.pack_bytes, u64ToLe, length_leBytes]

theorem lockSchedule_pack_lt (s : LockSchedule) :
    ∀ b ∈ LockSchedule.pack_bytes s, b < 256 := by
  intro b hb
  simp only [LockSchedule.pack_bytes, u64ToLe, List.mem_append] at hb
  rcases hb with h | h
  · exact leBytes_all_lt 8 _ b h
  · exact leBytes_all_lt 8 _ b h

def wfLockSchedule (s : LockSchedule) : Prop :=
  s.release_time < 2 ^ 64 ∧ s.amount < 2 ^ 64

instance (s : LockSchedule) : Decidable (wfLockSchedule s) := by
  unfold wfLockSchedule; infer_instance

theorem lockSchedule_unpack_pack {s : LockSchedule} (h : wfLockSchedule s) :
    LockSchedule.unpack_from_slice (LockSchedule.pack_bytes s) = .ok s := by
  obtain ⟨h1, h2⟩ := h
  unfold LockSchedule.unpack_from_slice
  rw [if_neg (by simp [lockSchedule_pack_length])]
  have ht : (LockSchedule.pack_bytes s).take 8 = u64ToLe s.release_time :=
    take_at _ _ (u64ToLe s.amount) _ rfl (by simp [u64ToLe, length_leBytes])
  have hd : (LockSchedule.pack_bytes s).drop 8 = u64ToLe s.amount :=
    drop_at _ (u64ToLe s.release_time) _ _ rfl (by simp [u64ToLe, length_leBytes])
  rw [ht, hd]
  have hta : (u64ToLe s.amount).take 8 = u64ToLe s.amount := by
    apply List.take_of_length_le
    simp [u64ToLe, length_leBytes]
  rw [hta, fromLeBytes_u64ToLe h1, fromLeBytes_u64ToLe h2]

def wfHeader (h : LockScheduleHeader) : Prop :=
  wfPubkey h.destination_address ∧ wfPubkey h.mint_address

instance (h : LockScheduleHeader) : Decidable (wfHeader h) := by
  unfold wfHeader; infer_instance

theorem header_pack_length {h : LockScheduleHeader} (hw : wfHeader h) :
    (LockScheduleHeader.pack_bytes h).length = 65 := by
  obtain ⟨⟨hd, _⟩, ⟨hm, _⟩⟩ := hw
  simp [LockScheduleHeader.pack_bytes, hd, hm]

theorem header_unpack_pack {h : LockScheduleHeader} (hw : wfHeader h) :
    LockScheduleHeader.unpack_from_slice (LockScheduleHeader.pack_bytes h) =
      .ok h := by
  obtain ⟨⟨hd, _⟩, ⟨hm, _⟩⟩ := hw
  unfold LockScheduleHeader.unpack_from_slice
  rw [if_neg (by simp [header_pack_length ⟨⟨hd, by assumption⟩, ⟨hm, by assumption⟩⟩, LockScheduleHeader.LEN])]
  have ht : (LockScheduleHeader.pack_bytes h).take 32 = h.destination_address :=
    take_at _ _ _ _ rfl hd.symm
  have hdr : (LockScheduleHeader.pack_bytes h).drop 32 =
      h.mint_address ++ [boolByte h.is_initialized] :=
    drop_at _ h.destination_address _ _ rfl hd.symm
  have htm : (h.mint_address ++ [boolByte h.is_initialized]).take 32 =
      h.mint_address :=
    take_at _ _ _ _ rfl hm.symm
  have hg : (LockScheduleHeader.pack_bytes h).getD 64 0 =
      boolByte h.is_initialized := by
    apply getD_at _ (h.destination_address ++ h.mint_address) _ []
    · simp [LockScheduleHeader.pack_bytes]
    · simp [hd, hm]
  rw [ht, hdr, htm, hg, boolByte_eq_one]

def wfGlobalState (c : LockGlobalState) : Prop :=
  wfPubkey c.price_estimator ∧ wfPubkey c.usd_token_address ∧
    c.fees_in_usd < 2 ^ 64 ∧ wfPubkey c.company_wallet

instance (c : LockGlobalState) : Decidable (wfGlobalState c) := by
  unfold wfGlobalState; infer_instance

theorem globalState_pack_length {c : LockGlobalState} (hw : wfGlobalState c) :
    (LockGlobalState.pack_bytes c).length = 106 := by
  obtain ⟨⟨h1, _⟩, ⟨h2, _⟩, _, ⟨h4, _⟩⟩ := hw
  simp [LockGlobalState.pack_bytes, h1, h2, h4, u64ToLe, length_leBytes]

theorem globalState_unpack_pack {c : LockGlobalState} (hw : wfGlobalState c) :
    LockGlobalState.unpack_from_slice (LockGlobalState.pack_bytes c) = .ok c := by
  obtain ⟨⟨h1, _⟩, ⟨h2, _⟩, h3, ⟨h4, _⟩⟩ := hw
  unfold LockGlobalState.unpack_from_slice
  rw [if_neg (by
    rw [globalState_pack_length ⟨⟨h1, by assumption⟩, ⟨h2, by assumption⟩, h3, ⟨h4, by assumption⟩⟩]
    simp [LockGlobalState.LEN])]
  have hfl : (u64ToLe c.fees_in_usd).length = 8 := by simp [u64ToLe, length_leBytes]
  have ht : (LockGlobalState.pack_bytes c).take 32 = c.price_estimator :=
    take_at _ _ _ _ rfl h1.symm
  have hd32 : (LockGlobalState.pack_bytes c).drop 32 =
      c.usd_token_address ++ (u64ToLe c.fees_in_usd ++ (c.company_wallet ++
        [boolByte c.is_paused, boolByte c.is_initialized])) :=
    drop_at _ c.price_estimator _ _ rfl h1.symm
  have hd64 : (LockGlobalState.pack_bytes c).drop 64 =
      u64ToLe c.fees_in_usd ++ (c.company_wallet ++
        [boolByte c.is_paused, boolByte c.is_initialized]) :=
    drop_at _ (c.price_estimator ++ c.usd_token_address) _ _
      (by simp [LockGlobalState.pack_bytes]) (by simp [h1, h2])
  have hd72 : (LockGlobalState.pack_bytes c).drop 72 =
      c.company_wallet ++ [boolByte c.is_paused, boolByte c.is_initialized] :=
    drop_at _ (c.price_estimator ++ c.usd_token_address ++ u64ToLe c.fees_in_usd)
      _ _ (by simp [LockGlobalState.pack_bytes]) (by simp [h1, h2, hfl])
  have hg104 : (LockGlobalState.pack_bytes c).getD 104 0 = boolByte c.is_paused := by
    apply getD_at _
      (c.price_estimator ++ c.usd_token_address ++ u64ToLe c.fees_in_usd ++
        c.company_wallet) _ [boolByte c.is_initialized]
    · simp [LockGlobalState.pack_bytes]
    · simp [h1, h2, h4, hfl]
  have hg105 : (LockGlobalState.pack_bytes c).getD 105 0 =
      boolByte c.is_initialized := by
    apply getD_at _
      (c.price_estimator ++ c.usd_token_address ++ u64ToLe c.fees_in_usd ++
        c.company_wallet ++ [boolByte c.is_paused]) _ []
    · simp [LockGlobalState.pack_bytes]
    · simp [h1, h2, h4, hfl]
  rw [ht, hd32, hd64, hd72, hg104, hg105]
  have htu : (c.usd_token_address ++ (u64ToLe c.fees_in_usd ++ (c.company_wallet ++
      [boolByte c.is_paused, boolByte c.is_initialized]))).take 32 =
      c.usd_token_address :=
    take_at _ _ _ _ rfl h2.symm
  have htf : (u64ToLe c.fees_in_usd ++ (c.company_wallet ++
      [boolByte c.is_paused, boolByte c.is_initialized])).take 8 =
      u64ToLe c.fees_in_usd :=
    take_at _ _ _ _ rfl hfl.symm
  have htc : (c.company_wallet ++
      [boolByte c.is_paused, boolByte c.is_initialized]).take 32 =
      c.company_wallet :=
    take_at _ _ _ _ rfl h4.symm
  rw [htu, htf, htc, fromLeBytes_u64ToLe h3, boolByte_eq_one, boolByte_eq_one]

def wfTokenState (t : TokenState) : Prop := wfPubkey t.mint_address

instance (t : TokenState) : Decidable (wfTokenState t) := by
  unfold wfTokenState; infer_instance

theorem tokenState_pack_length {t : TokenState} (hw : wfTokenState t) :
    (TokenState.pack_bytes t).length = 34 := by
  obtain ⟨h1, _⟩ := hw
  simp [TokenState.pack_bytes, h1]

theorem tokenState_unpack_pack {t : TokenState} (hw : wfTokenState t) :
    TokenState.unpack_from_slice (TokenState.pack_bytes t) = .ok t := by
  obtain ⟨h1, _⟩ := hw
  unfold TokenState.unpack_from_slice
  rw [if_neg (by
    rw [tokenState_pack_length ⟨h1, by assumption⟩]
    simp [TokenState.LEN])]
  have ht : (TokenState.pack_bytes t).take 32 = t.mint_address :=
    take_at _ _ _ _ rfl h1.symm
  have hg32 : (TokenState.pack_bytes t).getD 32 0 = boolByte t.is_free := by
    apply getD_at _ t.mint_address _ [boolByte t.is_initialized]
    · simp [TokenState.pack_bytes]
    · exact h1.symm
  have hg33 : (TokenState.pack_bytes t).getD 33 0 = boolByte t.is_initialized := by
    apply getD_at _ (t.mint_address ++ [boolByte t.is_free]) _ []
    · simp [TokenState.pack_bytes]
    · simp [h1]
  rw [ht, hg32, hg33, boolByte_eq_one, boolByte_eq_one]

/-! ## Schedule-array codec lemmas -/

theorem flatten_lockSchedule_length (scheds : List LockSchedule) :
    ((scheds.map LockSchedule.pack_bytes).flatten).length = 16 * scheds.length := by
  induction scheds with
  | nil => rfl
  | cons s r ih =>
      simp only [List.map_cons, List.flatten_cons, List.length_append, ih,
        lockSchedule_pack_length, List.length_cons]
      omega

theorem unpack_schedules_loop_encodes (scheds : List LockSchedule)
    (l pre : List Nat) (o n : Nat)
    (hl : l = pre ++ (scheds.map LockSchedule.pack_bytes).flatten)
    (ho : o = pre.length) (hn : n = scheds.length)
    (hwf : ∀ s ∈ scheds, wfLockSchedule s) :
    unpack_schedules_loop l o n = .ok scheds := by
  induction scheds generalizing l pre o n with
  | nil =>
      subst hl ho hn
      rfl
  | cons s rest ih =>
      subst hl ho hn
      have hd : (pre ++ ((s :: rest).map LockSchedule.pack_bytes).flatten).drop
          pre.length = LockSchedule.pack_bytes s ++
            (rest.map LockSchedule.pack_bytes).flatten := by
        apply drop_at _ pre _ _ (by simp) rfl
      have ht : (LockSchedule.pack_bytes s ++
          (rest.map LockSchedule.pack_bytes).flatten).take 16 =
          LockSchedule.pack_bytes s := by
        apply take_at _ _ _ _ rfl (lockSchedule_pack_length s).symm
      simp only [unpack_schedules_loop, LockSchedule.LEN, hd, ht,
        lockSchedule_unpack_pack (hwf s (by simp))]
      have hrec : unpack_schedules_loop
          (pre ++ ((s :: rest).map LockSchedule.pack_bytes).flatten)
          (pre.length + 16) rest.length = .ok rest := by
        apply ih _ (pre ++ LockSchedule.pack_bytes s)
        · simp [List.append_assoc]
        · simp [lockSchedule_pack_length]
        · rfl
        · intro x hx; exact hwf x (by simp [hx])
      rw [hrec]

theorem unpack_schedules_encodes (scheds : List LockSchedule)
    (hwf : ∀ s ∈ scheds, wfLockSchedule s) :
    unpack_schedules (scheds.map LockSchedule.pack_bytes).flatten = .ok scheds := by
  unfold unpack_schedules
  have hlen : ((scheds.map LockSchedule.pack_bytes).flatten).length /
      LockSchedule.LEN = scheds.length := by
    rw [flatten_lockSchedule_length]
    simp [LockSchedule.LEN]
  rw [hlen]
  exact unpack_schedules_loop_encodes scheds _ [] 0 scheds.length (by simp) rfl
    rfl hwf

/-- The byte blob of an instruction-level schedule list inside a packed
Create payload. -/
def scheduleBlob (schedules : List Schedule) : List Nat :=
  (schedules.map fun s => u64ToLe s.release_time ++ u64ToLe s.amount).flatten

theorem scheduleBlob_length (schedules : List Schedule) :
    (scheduleBlob schedules).length = 16 * schedules.length := by
  induction schedules with
  | nil => rfl
  | cons s r ih =>
      simp only [scheduleBlob, List.map_cons, List.flatten_cons,
        List.length_append, List.length_cons] at ih ⊢
      rw [ih]
      simp only [List.length_append, u64ToLe, length_leBytes]
      omega

theorem parseSchedules_at (scheds : List Schedule) (l pre : List Nat)
    (o n : Nat) (hl : l = pre ++ scheduleBlob scheds) (ho : o = pre.length)
    (hn : n = scheds.length) (hwf : ∀ s ∈ scheds, wfSchedule s) :
    parseSchedules l o n = .ok scheds := by
  induction scheds generalizing l pre o n with
  | nil =>
      subst hl ho hn
      rfl
  | cons s rest ih =>
      subst hl ho hn
      have hb : scheduleBlob (s :: rest) =
          u64ToLe s.release_time ++ (u64ToLe s.amount ++ scheduleBlob rest) := by
        simp [scheduleBlob, List.append_assoc]
      have e1 : sliceGet (pre ++ scheduleBlob (s :: rest)) pre.length
          (pre.length + 8) = some (u64ToLe s.release_time) := by
        apply sliceGet_at _ pre _ (u64ToLe s.amount ++ scheduleBlob rest)
        · rw [hb]
        · rfl
        · simp [u64ToLe, length_leBytes]
      have e2 : sliceGet (pre ++ scheduleBlob (s :: rest)) (pre.length + 8)
          (pre.length + 16) = some (u64ToLe s.amount) := by
        apply sliceGet_at _ (pre ++ u64ToLe s.release_time) _ (scheduleBlob rest)
        · rw [hb]; simp [List.append_assoc]
        · simp [u64ToLe, length_leBytes]
        · simp only [List.length_append, u64ToLe, length_leBytes]
      simp only [parseSchedules, SCHEDULE_SIZE, e1, e2]
      have hrec : parseSchedules (pre ++ scheduleBlob (s :: rest))
          (pre.length + 16) rest.length = .ok rest := by
        apply ih _ (pre ++ (u64ToLe s.release_time ++ u64ToLe s.amount))
        · rw [hb]; simp [List.append_assoc]
        · simp [u64ToLe, length_leBytes]
        · rfl
        · intro x hx; exact hwf x (by simp [hx])
      rw [hrec]
      obtain ⟨hw1, hw2⟩ := hwf s (by simp)
      rw [fromLeBytes_u64ToLe hw1, fromLeBytes_u64ToLe hw2]

theorem parseSchedules_total {rest : List Nat} {offset : Nat} (n : Nat)
    (h : offset + 16 * n ≤ rest.length) :
    ∃ scheds, parseSchedules rest offset n = .ok scheds ∧ scheds.length = n := by
  induction n generalizing offset with
  | zero => exact ⟨[], rfl, rfl⟩
  | succ n ih =>
      have e1 : sliceGet rest offset (offset + 8) =
          some ((rest.drop offset).take 8) := by
        have := sliceGet_of_le rest offset (offset + 8) (by omega) (by omega)
        simpa using this
      have e2 : sliceGet rest (offset + 8) (offset + 16) =
          some ((rest.drop (offset + 8)).take 8) := by
        have := sliceGet_of_le rest (offset + 8) (offset + 16) (by omega)
          (by omega)
        simpa using this
      obtain ⟨tail, htail, hlen⟩ :=
        ih (show offset + 16 + 16 * n ≤ rest.length by omega)
      refine ⟨{ release_time := fromLeBytes ((rest.drop offset).take 8),
                amount := fromLeBytes ((rest.drop (offset + 8)).take 8) } :: tail,
              ?_, ?_⟩
      · simp only [parseSchedules, SCHEDULE_SIZE, e1, e2, htail]
      · simp [hlen]

theorem pack_create_eq (seeds : List Nat) (mint dest : Pubkey)
    (schedules : List Schedule) :
    LockTokenInstruction.pack (.create seeds mint dest schedules) =
      1 :: (seeds ++ (mint ++ (dest ++ scheduleBlob schedules))) := rfl

/-- Claim C6: the codec round-trips — for every representable instruction
(fields within their Rust types' ranges), `unpack (pack x) = Ok(x)`. -/
theorem c6_unpack_pack (x : LockTokenInstruction) (hw : wfInstruction x) :
    LockTokenInstruction.unpack (LockTokenInstruction.pack x) = .ok x := by
  cases x with
  | init seeds n =>
      obtain ⟨⟨hs, _⟩, hn⟩ := hw
      have s1 : sliceGet (seeds ++ u32ToLe n) 0 32 = some seeds :=
        sliceGet_at _ [] seeds (u32ToLe n) 0 32 (by simp) rfl (by simp [hs])
      have s2 : sliceGet (seeds ++ u32ToLe n) 32 36 = some (u32ToLe n) :=
        sliceGet_at _ seeds (u32ToLe n) [] 32 36 (by simp) hs.symm
          (by simp [hs, u32ToLe, length_leBytes])
      simp only [LockTokenInstruction.pack, LockTokenInstruction.unpack, s1, s2,
        fromLeBytes_u32ToLe hn]
  | create seeds mint dest schedules =>
      obtain ⟨⟨hs, _⟩, ⟨hm, _⟩, ⟨hd, _⟩, hws⟩ := hw
      have s1 : sliceGet (seeds ++ (mint ++ (dest ++ scheduleBlob schedules)))
          0 32 = some seeds :=
        sliceGet_at _ [] seeds (mint ++ (dest ++ scheduleBlob schedules)) 0 32
          (by simp) rfl (by simp [hs])
      have s2 : sliceGet (seeds ++ (mint ++ (dest ++ scheduleBlob schedules)))
          32 64 = some mint :=
        sliceGet_at _ seeds mint (dest ++ scheduleBlob schedules) 32 64 rfl
          hs.symm (by simp [hs, hm])
      have s3 : sliceGet (seeds ++ (mint ++ (dest ++ scheduleBlob schedules)))
          64 96 = some dest :=
        sliceGet_at _ (seeds ++ mint) dest (scheduleBlob schedules) 64 96
          (by simp [List.append_assoc]) (by simp [hs, hm])
          (by simp [hs, hm, hd])
      have hrl : (seeds ++ (mint ++ (dest ++ scheduleBlob schedules))).length =
          96 + 16 * schedules.length := by
        simp [hs, hm, hd, scheduleBlob_length]
        omega
      have hcount : ((seeds ++ (mint ++ (dest ++ scheduleBlob
          schedules))).length - 96) / SCHEDULE_SIZE = schedules.length := by
        rw [hrl]
        simp [SCHEDULE_SIZE]
      have sp : parseSchedules
          (seeds ++ (mint ++ (dest ++ scheduleBlob schedules))) 96
          schedules.length = .ok schedules :=
        parseSchedules_at schedules _ (seeds ++ (mint ++ dest)) 96
          schedules.length (by simp [List.append_assoc]) (by simp [hs, hm, hd])
          rfl hws
      simp only [pack_create_eq, LockTokenInstruction.unpack, s1, s2, s3,
        hcount, sp]
  | unlock seeds =>
      obtain ⟨hs, _⟩ := hw
      have s1 : sliceGet seeds 0 32 = some seeds := by
        have := sliceGet_at seeds [] seeds [] 0 32 (by simp) rfl (by simp [hs])
        simpa using this
      simp only [LockTokenInstruction.pack, LockTokenInstruction.unpack, s1]
  | transferLocks seeds =>
      obtain ⟨hs, _⟩ := hw
      have s1 : sliceGet seeds 0 32 = some seeds := by
        have := sliceGet_at seeds [] seeds [] 0 32 (by simp) rfl (by simp [hs])
        simpa using this
      simp only [LockTokenInstruction.pack, LockTokenInstruction.unpack, s1]
  | extendLockDuration seeds index rt =>
      obtain ⟨⟨hs, _⟩, hi, hr⟩ := hw
      have s1 : sliceGet (seeds ++ (u32ToLe index ++ u64ToLe rt)) 0 32 =
          some seeds :=
        sliceGet_at _ [] seeds (u32ToLe index ++ u64ToLe rt) 0 32 (by simp) rfl
          (by simp [hs])
      have s2 : sliceGet (seeds ++ (u32ToLe index ++ u64ToLe rt)) 32 36 =
          some (u32ToLe index) :=
        sliceGet_at _ seeds (u32ToLe index) (u64ToLe rt) 32 36 rfl hs.symm
          (by simp [hs, u32ToLe, length_leBytes])
      have s3 : sliceGet (seeds ++ (u32ToLe index ++ u64ToLe rt)) 36 44 =
          some (u64ToLe rt) :=
        sliceGet_at _ (seeds ++ u32ToLe index) (u64ToLe rt) [] 36 44
          (by simp [List.append_assoc])
          (by simp [hs, u32ToLe, length_leBytes])
          (by simp [hs, u32ToLe, u64ToLe, length_leBytes])
      simp only [LockTokenInstruction.pack, LockTokenInstruction.unpack, s1, s2,
        s3, fromLeBytes_u32ToLe hi, fromLeBytes_u64ToLe hr]
  | pauseContract p =>
      have s1 : sliceGet [boolByte p] 0 1 = some [boolByte p] := by
        have := sliceGet_at [boolByte p] [] [boolByte p] [] 0 1 (by simp) rfl
          (by simp)
        simpa using this
      have hf : fromLeBytes [boolByte p] = boolByte p := by
        simp [fromLeBytes]
      simp only [LockTokenInstruction.pack, LockTokenInstruction.unpack, s1, hf,
        boolByte_eq_one]
  | setFeeParams pe usd fees cw =>
      obtain ⟨⟨h1, _⟩, ⟨h2, _⟩, h3, ⟨h4, _⟩⟩ := hw
      have s1 : sliceGet (pe ++ (usd ++ (u64ToLe fees ++ cw))) 0 32 =
          some pe :=
        sliceGet_at _ [] pe (usd ++ (u64ToLe fees ++ cw)) 0 32 (by simp) rfl
          (by simp [h1])
      have s2 : sliceGet (pe ++ (usd ++ (u64ToLe fees ++ cw))) 32 64 =
          some usd :=
        sliceGet_at _ pe usd (u64ToLe fees ++ cw) 32 64 rfl h1.symm
          (by simp [h1, h2])
      have s3 : sliceGet (pe ++ (usd ++ (u64ToLe fees ++ cw))) 64 72 =
          some (u64ToLe fees) :=
        sliceGet_at _ (pe ++ usd) (u64ToLe fees) cw 64 72
          (by simp [List.append_assoc]) (by simp [h1, h2])
          (by simp [h1, h2, u64ToLe, length_leBytes])
      have s4 : sliceGet (pe ++ (usd ++ (u64ToLe fees ++ cw))) 72 104 =
          some cw :=
        sliceGet_at _ (pe ++ (usd ++ u64ToLe fees)) cw [] 72 104
          (by simp [List.append_assoc]) (by simp [h1, h2, u64ToLe, length_leBytes])
          (by simp [h1, h2, h4, u64ToLe, length_leBytes])
      simp only [LockTokenInstruction.pack, LockTokenInstruction.unpack, s1, s2,
        s3, s4, fromLeBytes_u64ToLe h3]
  | setFeesInUSD fees =>
      have s1 : sliceGet (u64ToLe fees) 0 8 = some (u64ToLe fees) := by
        have := sliceGet_at (u64ToLe fees) [] (u64ToLe fees) [] 0 8 (by simp)
          rfl (by simp [u64ToLe, length_leBytes])
        simpa using this
      simp only [LockTokenInstruction.pack, LockTokenInstruction.unpack, s1,
        fromLeBytes_u64ToLe hw]
  | setCompanyWallet cw =>
      obtain ⟨h1, _⟩ := hw
      have s1 : sliceGet cw 0 32 = some cw := by
        have := sliceGet_at cw [] cw [] 0 32 (by simp) rfl (by simp [h1])
        simpa using this
      simp only [LockTokenInstruction.pack, LockTokenInstruction.unpack, s1]
  | setFreeToken mint f =>
      obtain ⟨h1, _⟩ := hw
      have s1 : sliceGet (mint ++ [boolByte f]) 0 32 = some mint :=
        sliceGet_at _ [] mint [boolByte f] 0 32 (by simp) rfl (by simp [h1])
      have s2 : sliceGet (mint ++ [boolByte f]) 32 33 = some [boolByte f] :=
        sliceGet_at _ mint [boolByte f] [] 32 33 rfl h1.symm (by simp [h1])
      have hf : fromLeBytes [boolByte f] = boolByte f := by
        simp [fromLeBytes]
      simp only [LockTokenInstruction.pack, LockTokenInstruction.unpack, s1, s2,
        hf, boolByte_eq_one]
  | transferOwnership => rfl

/-- Witness for C6 at a concrete Create instruction with one schedule. -/
theorem c6_unpack_pack_witness :
    wfInstruction (.create (List.replicate 32 1) (List.replicate 32 2)
      (List.replicate 32 3) [⟨5, 7⟩]) ∧
    LockTokenInstruction.unpack (LockTokenInstruction.pack
      (.create (List.replicate 32 1) (List.replicate 32 2)
        (List.replicate 32 3) [⟨5, 7⟩])) =
      .ok (.create (List.replicate 32 1) (List.replicate 32 2)
        (List.replicate 32 3) [⟨5, 7⟩]) :=
  ⟨by decide, c6_unpack_pack _ (by decide)⟩

/-- Claim C1: the empty buffer and an unrecognized tag byte fail with
`InvalidInstruction`, but a recognized tag whose payload is shorter than
the 32-byte seeds field (tags 0–4) panics in `Option::unwrap` instead of
returning `InvalidInstruction`: evaluated here at the one-byte inputs
`[0]` and `[2]`. -/
theorem c1_unpack_short_seeds_panics :
    LockTokenInstruction.unpack [] = .error .invalidInstruction ∧
    LockTokenInstruction.unpack [11] = .error .invalidInstruction ∧
    LockTokenInstruction.unpack [0] = .error .panicked ∧
    LockTokenInstruction.unpack [2] = .error .panicked := by
  refine ⟨rfl, ?_, rfl, rfl⟩
  rfl

/-- Claim C10: with at least the 96 fixed payload bytes present, a Create
payload always decodes, and the number of schedule entries is the
remaining length divided by the 16-byte entry size — a nonzero remainder
is silently truncated, never an error. -/
theorem c10_create_schedule_truncation (rest : List Nat)
    (h : 96 ≤ rest.length) :
    ∃ seeds mint dest schedules,
      LockTokenInstruction.unpack (1 :: rest) =
        .ok (.create seeds mint dest schedules) ∧
      schedules.length = (rest.length - 96) / SCHEDULE_SIZE := by
  have s1 := sliceGet_of_le rest 0 32 (by omega) (by omega)
  have s2 := sliceGet_of_le rest 32 64 (by omega) (by omega)
  have s3 := sliceGet_of_le rest 64 96 (by omega) (by omega)
  have hm : (rest.length - 96) / SCHEDULE_SIZE * 16 ≤ rest.length - 96 := by
    simp only [SCHEDULE_SIZE]
    exact Nat.div_mul_le_self _ 16
  have hn : 96 + 16 * ((rest.length - 96) / SCHEDULE_SIZE) ≤ rest.length := by
    omega
  obtain ⟨scheds, hp, hlen⟩ := parseSchedules_total _ hn
  refine ⟨List.take (32 - 0) (List.drop 0 rest), List.take (64 - 32)
    (List.drop 32 rest), List.take (96 - 64) (List.drop 64 rest), scheds,
    ?_, hlen⟩
  simp only [LockTokenInstruction.unpack, s1, s2, s3, hp]

/-- Witness for C10 at a 117-byte buffer: 20 trailing bytes yield one
entry, the 4-byte remainder is dropped. -/
theorem c10_create_schedule_truncation_witness :
    96 ≤ (List.replicate 116 0 : List Nat).length ∧
    ∃ seeds mint dest schedules,
      LockTokenInstruction.unpack (1 :: List.replicate 116 0) =
        .ok (.create seeds mint dest schedules) ∧
      schedules.length =
        ((List.replicate 116 0 : List Nat).length - 96) / SCHEDULE_SIZE :=
  ⟨by simp, c10_create_schedule_truncation _ (by simp)⟩

/-! ## `Pack::unpack` wrappers (exact length + `IsInitialized` gate, as in
`solana_program::program_pack`) -/

/-- `LockGlobalState::unpack` (`Pack::unpack`): exact length, then the
`IsInitialized` gate on the `is_initialized` field. -/
def LockGlobalState.unpack (input : List Nat) : Except ProgErr LockGlobalState :=
  if input.length ≠ LockGlobalState.LEN then .error .invalidAccountData
  else
    match LockGlobalState.unpack_from_slice input with
    | .error e => .error e
    | .ok v => if v.is_initialized then .ok v else .error .uninitializedAccount

/-- `LockScheduleHeader::unpack` (`Pack::unpack`). -/
def LockScheduleHeader.unpack (input : List Nat) :
    Except ProgErr LockScheduleHeader :=
  if input.length ≠ LockScheduleHeader.LEN then .error .invalidAccountData
  else
    match LockScheduleHeader.unpack_from_slice input with
    | .error e => .error e
    | .ok v => if v.is_initialized then .ok v else .error .uninitializedAccount

/-- `LockSchedule::unpack` (`Pack::unpack`); its `IsInitialized` instance
is `amount > 0`. -/
def LockSchedule.unpack (input : List Nat) : Except ProgErr LockSchedule :=
  if input.length ≠ LockSchedule.LEN then .error .invalidAccountData
  else
    match LockSchedule.unpack_from_slice input with
    | .error e => .error e
    | .ok v => if 0 < v.amount then .ok v else .error .uninitializedAccount

/-- `TokenState::unpack` (`Pack::unpack`). -/
def TokenState.unpack (input : List Nat) : Except ProgErr TokenState :=
  if input.length ≠ TokenState.LEN then .error .invalidAccountData
  else
    match TokenState.unpack_from_slice input with
    | .error e => .error e
    | .ok v => if v.is_initialized then .ok v else .error .uninitializedAccount

theorem globalState_full_unpack_pack {c : LockGlobalState}
    (hw : wfGlobalState c) (hi : c.is_initialized = true) :
    LockGlobalState.unpack (LockGlobalState.pack_bytes c) = .ok c := by
  unfold LockGlobalState.unpack
  rw [if_neg (by rw [globalState_pack_length hw]; simp [LockGlobalState.LEN]),
    globalState_unpack_pack hw]
  simp [hi]

theorem header_full_unpack_pack {h : LockScheduleHeader} (hw : wfHeader h)
    (hi : h.is_initialized = true) :
    LockScheduleHeader.unpack (LockScheduleHeader.pack_bytes h) = .ok h := by
  unfold LockScheduleHeader.unpack
  rw [if_neg (by rw [header_pack_length hw]; simp [LockScheduleHeader.LEN]),
    header_unpack_pack hw]
  simp [hi]

theorem lockSchedule_full_unpack_pack {s : LockSchedule} (hw : wfLockSchedule s)
    (ha : 0 < s.amount) :
    LockSchedule.unpack (LockSchedule.pack_bytes s) = .ok s := by
  unfold LockSchedule.unpack
  rw [if_neg (by rw [lockSchedule_pack_length]; simp [LockSchedule.LEN]),
    lockSchedule_unpack_pack hw]
  simp [ha]

theorem tokenState_full_unpack_pack {t : TokenState} (hw : wfTokenState t)
    (hi : t.is_initialized = true) :
    TokenState.unpack (TokenState.pack_bytes t) = .ok t := by
  unfold TokenState.unpack
  rw [if_neg (by rw [tokenState_pack_length hw]; simp [TokenState.LEN]),
    tokenState_unpack_pack hw]
  simp [hi]

/-! ## Processor embedding (src/processor.rs)

Host collaborators (`Pubkey::create_program_address`, SPL token
`Account::unpack`, `Rent`/`Clock` sysvars, and the invoked system/SPL
transfer primitives) are abstracted into an `Env`; every invoked external
call is recorded in the handler's `Ok` payload, and a failing invocation
propagates its error.  On any error the host discards all pending writes,
so a handler returns the written-back account bytes only in its `Ok`
payload. -/

/-- The slice of `AccountInfo` the processor reads. -/
structure AccountInfo where
  key : Pubkey
  is_signer : Bool
  owner : Pubkey
  data : List Nat
deriving DecidableEq

/-- A decoded `spl_token::state::Account`. -/
structure TokenAccount where
  mint : Pubkey
  owner : Pubkey
  amount : Nat
  delegate : Option Pubkey
  close_authority : Option Pubkey
deriving DecidableEq

/-- An invoked `system_instruction::transfer` (native-asset fee). -/
structure SolTransfer where
  source : Pubkey
  dest : Pubkey
  lamports : Nat
deriving DecidableEq

/-- An invoked `spl_token::instruction::transfer`. -/
structure TokenTransfer where
  token_program : Pubkey
  source : Pubkey
  dest : Pubkey
  authority : Pubkey
  amount : Nat
deriving DecidableEq

/-- An invoked `system_instruction::create_account`. -/
structure CreateAccountCall where
  funder : Pubkey
  new_account : Pubkey
  lamports : Nat
  space : Nat
  account_owner : Pubkey
deriving DecidableEq

/-- The host collaborators consumed by the processor. -/
structure Env where
  create_program_address : List (List Nat) → Pubkey → Except ProgErr Pubkey
  unpack_token_account : List Nat → Except ProgErr TokenAccount
  rent_from_account : List Nat → Except ProgErr Unit
  rent_minimum_balance : Nat → Nat
  spl_token_id : Pubkey
  clock_from_account : List Nat → Except ProgErr Int
  invoke_sol_transfer : SolTransfer → Except ProgErr Unit
  invoke_token_transfer : TokenTransfer → Except ProgErr Unit
  invoke_create_account : CreateAccountCall → Except ProgErr Unit

structure CreateOk where
  new_locking_data : List Nat
  sol_fee : SolTransfer
  token_transfer : TokenTransfer
deriving DecidableEq

/-- The token-fee-record read inside `process_create`: when byte 33
marks the record initialized, decode it and require its mint to match;
otherwise use the in-memory default (mint, `is_free = false`). -/
def create_token_state_read (token_state_data : List Nat)
    (free_init_byte : Nat) (mint_address : Pubkey) :
    Except ProgErr TokenState :=
  if free_init_byte == 1 then
    match TokenState.unpack (token_state_data.take TokenState.LEN) with
    | .error e => .error e
    | .ok ts =>
        if ts.mint_address ≠ mint_address then .error .invalidArgument
        else .ok ts
  else
    .ok { mint_address := mint_address, is_free := false,
          is_initialized := false }

/-- The schedule-writing / fee-summing loop of `process_create`: packs
each entry into the locking data at the running offset and accumulates
the total with `checked_add`, aborting with `InvalidInstructionData` on
`u64` overflow. -/
def create_fill_loop (data : List Nat) (offset total_amount : Nat) :
    List Schedule → Except ProgErr (List Nat × Nat)
  | [] => .ok (data, total_amount)
  | s :: rest =>
    let data2 := write_bytes data offset
      (LockSchedule.pack_bytes { release_time := s.release_time, amount := s.amount })
    match checked_add_u64 total_amount s.amount with
    | some n => create_fill_loop data2 (offset + SCHEDULE_SIZE) n rest
    | none => .error .invalidInstructionData

/-- `Processor::process_create`. -/
def process_create (env : Env) (program_id : Pubkey)
    (spl_token_account program_state_account locking_account
      locking_token_account source_token_account_owner source_token_account
      token_state_account company_wallet : AccountInfo)
    (seeds : List Nat) (mint_address destination_token_address : Pubkey)
    (schedules : List Schedule) : Except ProgErr CreateOk :=
  match env.create_program_address [owner_mint_seed] program_id with
  | .error e => .error e
  | .ok program_state_account_key =>
  if program_state_account_key ≠ program_state_account.key then
    .error .invalidArgument
  else
  match program_state_account.data.get? (LockGlobalState.LEN - 1) with
  | none => .error .panicked
  | some state_init_byte =>
  if ¬(state_init_byte == 1) then .error .invalidArgument
  else
  match LockGlobalState.unpack program_state_account.data with
  | .error e => .error e
  | .ok program_global_state =>
  if program_global_state.is_paused then .error .invalidArgument
  else
  match env.create_program_address [seeds] program_id with
  | .error e => .error e
  | .ok locking_account_key =>
  if locking_account_key ≠ locking_account.key then .error .invalidArgument
  else
  if ¬source_token_account_owner.is_signer then .error .invalidArgument
  else
  if locking_account.owner ≠ program_id then .error .invalidArgument
  else
  match locking_account.data.get? (LockScheduleHeader.LEN - 1) with
  | none => .error .panicked
  | some header_init_byte =>
  if header_init_byte == 1 then .error .invalidArgument
  else
  match env.unpack_token_account locking_token_account.data with
  | .error e => .error e
  | .ok locking_token_account_data =>
  if locking_token_account_data.owner ≠ locking_account_key then
    .error .invalidArgument
  else
  if locking_token_account_data.delegate.isSome then .error .invalidAccountData
  else
  if locking_token_account_data.close_authority.isSome then
    .error .invalidAccountData
  else
  match env.create_program_address [mint_address] program_id with
  | .error e => .error e
  | .ok token_state_account_key =>
  if token_state_account_key ≠ token_state_account.key then
    .error .invalidArgument
  else
  match token_state_account.data.get? (TokenState.LEN - 1) with
  | none => .error .panicked
  | some free_init_byte =>
  match create_token_state_read token_state_account.data free_init_byte
      mint_address with
  | .error e => .error e
  | .ok token_state_data =>
  match token_state_data.estimate_fees_in_sol with
  | .error e => .error e
  | .ok fee =>
  let sol_fee : SolTransfer :=
    { source := source_token_account_owner.key, dest := company_wallet.key,
      lamports := fee }
  match env.invoke_sol_transfer sol_fee with
  | .error e => .error e
  | .ok _ =>
  let state_header : LockScheduleHeader :=
    { destination_address := destination_token_address,
      mint_address := mint_address, is_initialized := true }
  if locking_account.data.length ≠
      LockScheduleHeader.LEN + schedules.length * LockSchedule.LEN then
    .error .invalidAccountData
  else
  let data1 := write_bytes locking_account.data 0 state_header.pack_bytes
  match create_fill_loop data1 LockScheduleHeader.LEN 0 schedules with
  | .error e => .error e
  | .ok (data2, total_amount) =>
  match env.unpack_token_account source_token_account.data with
  | .error e => .error e
  | .ok source_token_account_data =>
  if source_token_account_data.amount < total_amount then
    .error .insufficientFunds
  else
  let tok : TokenTransfer :=
    { token_program := spl_token_account.key,
      source := source_token_account.key,
      dest := locking_token_account.key,
      authority := source_token_account_owner.key, amount := total_amount }
  match env.invoke_token_transfer tok with
  | .error e => .error e
  | .ok _ =>
      .ok { new_locking_data := data2, sol_fee := sol_fee,
            token_transfer := tok }

structure UnlockOk where
  new_locking_data : List Nat
  token_transfer : TokenTransfer
deriving DecidableEq

/-- The maturity sweep of `process_unlock`: a matured entry's amount is
added to the running `u64` total (wrapping, as the source's unchecked
`+=` does in a release build) and zeroed in place. -/
def unlock_sweep (now total : Nat) :
    List LockSchedule → Nat × List LockSchedule
  | [] => (total, [])
  | s :: rest =>
    if now ≥ s.release_time then
      let r := unlock_sweep now ((total + s.amount) % 2 ^ 64) rest
      (r.1, { release_time := s.release_time, amount := 0 } :: r.2)
    else
      let r := unlock_sweep now total rest
      (r.1, s :: r.2)

/-- `Processor::process_unlock`. -/
def process_unlock (env : Env) (program_id : Pubkey)
    (spl_token_account clock_sysvar_account program_state_account
      locking_account locking_token_account destination_token_account :
      AccountInfo) (seeds : List Nat) : Except ProgErr UnlockOk :=
  match env.create_program_address [owner_mint_seed] program_id with
  | .error e => .error e
  | .ok program_state_account_key =>
  if program_state_account_key ≠ program_state_account.key then
    .error .invalidArgument
  else
  match program_state_account.data.get? (LockGlobalState.LEN - 1) with
  | none => .error .panicked
  | some state_init_byte =>
  if ¬(state_init_byte == 1) then .error .invalidArgument
  else
  match LockGlobalState.unpack program_state_account.data with
  | .error e => .error e
  | .ok program_global_state =>
  if program_global_state.is_paused then .error .invalidArgument
  else
  match env.create_program_address [seeds] program_id with
  | .error e => .error e
  | .ok locking_account_key =>
  if locking_account_key ≠ locking_account.key then .error .invalidArgument
  else
  if spl_token_account.key ≠ env.spl_token_id then .error .invalidArgument
  else
  if locking_account.data.length < LockScheduleHeader.LEN then .error .panicked
  else
  match LockScheduleHeader.unpack
      (locking_account.data.take LockScheduleHeader.LEN) with
  | .error e => .error e
  | .ok header_state =>
  if header_state.destination_address ≠ destination_token_account.key then
    .error .invalidArgument
  else
  match env.unpack_token_account locking_token_account.data with
  | .error e => .error e
  | .ok locking_token_account_data =>
  if locking_token_account_data.owner ≠ locking_account_key then
    .error .invalidArgument
  else
  match env.clock_from_account clock_sysvar_account.data with
  | .error e => .error e
  | .ok unix_timestamp =>
  match unpack_schedules (locking_account.data.drop LockScheduleHeader.LEN) with
  | .error e => .error e
  | .ok schedules =>
  let swept := unlock_sweep (i64_as_u64 unix_timestamp) 0 schedules
  if swept.1 = 0 then .error .invalidArgument
  else
  let tok : TokenTransfer :=
    { token_program := spl_token_account.key,
      source := locking_token_account.key,
      dest := destination_token_account.key,
      authority := locking_account_key, amount := swept.1 }
  match env.invoke_token_transfer tok with
  | .error e => .error e
  | .ok _ =>
      .ok { new_locking_data :=
              write_bytes locking_account.data LockScheduleHeader.LEN
                (swept.2.map LockSchedule.pack_bytes).flatten,
            token_transfer := tok }

structure TransferLocksOk where
  new_locking_data : List Nat
  token_transfers : List TokenTransfer
deriving DecidableEq

/-- `Processor::process_transfer_locks`.  The handler performs no
transfer invocation, so `token_transfers` is always empty. -/
def process_transfer_locks (env : Env) (program_id : Pubkey)
    (program_state_account locking_account destination_token_account
      destination_token_account_owner new_destination_token_account :
      AccountInfo) (seeds : List Nat) : Except ProgErr TransferLocksOk :=
  match env.create_program_address [owner_mint_seed] program_id with
  | .error e => .error e
  | .ok program_state_account_key =>
  if program_state_account_key ≠ program_state_account.key then
    .error .invalidArgument
  else
  match program_state_account.data.get? (LockGlobalState.LEN - 1) with
  | none => .error .panicked
  | some state_init_byte =>
  if ¬(state_init_byte == 1) then .error .invalidArgument
  else
  match LockGlobalState.unpack program_state_account.data with
  | .error e => .error e
  | .ok program_global_state =>
  if program_global_state.is_paused then .error .invalidArgument
  else
  if locking_account.data.length < LockScheduleHeader.LEN then
    .error .invalidAccountData
  else
  match env.create_program_address [seeds] program_id with
  | .error e => .error e
  | .ok locking_account_key =>
  match LockScheduleHeader.unpack
      (locking_account.data.take LockScheduleHeader.LEN) with
  | .error e => .error e
  | .ok state =>
  if locking_account_key ≠ locking_account.key then .error .invalidArgument
  else
  if state.destination_address ≠ destination_token_account.key then
    .error .invalidArgument
  else
  if ¬destination_token_account_owner.is_signer then .error .invalidArgument
  else
  match env.unpack_token_account destination_token_account.data with
  | .error e => .error e
  | .ok destination_token_account_data =>
  if destination_token_account_data.owner ≠
      destination_token_account_owner.key then .error .invalidArgument
  else
    let new_state :=
      { state with destination_address := new_destination_token_account.key }
    .ok { new_locking_data :=
            write_bytes locking_account.data 0 new_state.pack_bytes,
          token_transfers := [] }

structure ExtendLockDurationOk where
  new_locking_data : List Nat
deriving DecidableEq

/-- `Processor::process_extend_lock_duration`. -/
def process_extend_lock_duration (env : Env) (program_id : Pubkey)
    (program_state_account locking_account destination_token_account
      destination_token_account_owner : AccountInfo) (seeds : List Nat)
    (index : Nat) (release_time : Nat) : Except ProgErr ExtendLockDurationOk :=
  match env.create_program_address [owner_mint_seed] program_id with
  | .error e => .error e
  | .ok program_state_account_key =>
  if program_state_account_key ≠ program_state_account.key then
    .error .invalidArgument
  else
  match program_state_account.data.get? (LockGlobalState.LEN - 1) with
  | none => .error .panicked
  | some state_init_byte =>
  if ¬(state_init_byte == 1) then .error .invalidArgument
  else
  match LockGlobalState.unpack program_state_account.data with
  | .error e => .error e
  | .ok program_global_state =>
  if program_global_state.is_paused then .error .invalidArgument
  else
  if locking_account.data.length <
      LockScheduleHeader.LEN + LockSchedule.LEN * (index + 1) then
    .error .invalidAccountData
  else
  match env.create_program_address [seeds] program_id with
  | .error e => .error e
  | .ok locking_account_key =>
  match LockSchedule.unpack
      ((locking_account.data.drop
          (LockScheduleHeader.LEN + LockSchedule.LEN * index)).take
        LockSchedule.LEN) with
  | .error e => .error e
  | .ok state =>
  if locking_account_key ≠ locking_account.key then .error .invalidArgument
  else
  if state.release_time > release_time then .error .invalidArgument
  else
  if ¬destination_token_account_owner.is_signer then .error .invalidArgument
  else
  match env.unpack_token_account destination_token_account.data with
  | .error e => .error e
  | .ok destination_token_account_data =>
  if destination_token_account_data.owner ≠
      destination_token_account_owner.key then .error .invalidArgument
  else
    let new_state := { state with release_time := release_time }
    .ok { new_locking_data :=
            write_bytes locking_account.data
              (LockScheduleHeader.LEN + LockSchedule.LEN * index)
              new_state.pack_bytes }

structure AdminOk where
  new_state_data : List Nat
deriving DecidableEq

/-- `Processor::process_pause_contract`. -/
def process_pause_contract (env : Env) (program_id : Pubkey)
    (program_owner_account program_owner_token_account
      program_state_account : AccountInfo) (is_pause : Bool) :
    Except ProgErr AdminOk :=
  match env.create_program_address [owner_mint_seed] program_id with
  | .error e => .error e
  | .ok program_state_account_key =>
  if program_state_account_key ≠ program_state_account.key then
    .error .invalidArgument
  else
  if ¬program_owner_account.is_signer then .error .invalidArgument
  else
  if program_state_account.owner ≠ program_id then .error .invalidArgument
  else
  match env.unpack_token_account program_owner_token_account.data with
  | .error e => .error e
  | .ok program_owner_token_account_data =>
  if program_owner_token_account_data.owner ≠ program_owner_account.key then
    .error .invalidArgument
  else
  match pubkey_from_str OWNER_TOKEN_MINT_ADDRESS with
  | some v =>
    if v ≠ program_owner_token_account_data.mint ∨
        program_owner_token_account_data.amount = 0 then
      .error .invalidArgument
    else
      match program_state_account.data.get? (LockGlobalState.LEN - 1) with
      | none => .error .panicked
      | some state_init_byte =>
      if ¬(state_init_byte == 1) then .error .invalidArgument
      else
      match LockGlobalState.unpack
          (program_state_account.data.take LockGlobalState.LEN) with
      | .error e => .error e
      | .ok program_global_state =>
        let new_state := { program_global_state with is_paused := is_pause }
        .ok { new_state_data :=
                write_bytes program_state_account.data 0 new_state.pack_bytes }
  | none => .error .invalidArgument

/-- `Processor::process_set_fee_params`. -/
def process_set_fee_params (env : Env) (program_id : Pubkey)
    (system_program_account rent_sysvar_account program_owner_account
      program_owner_token_account program_state_account : AccountInfo)
    (price_estimator usd_token_address : Pubkey) (fees_in_usd : Nat)
    (company_wallet : Pubkey) : Except ProgErr AdminOk :=
  match env.rent_from_account rent_sysvar_account.data with
  | .error e => .error e
  | .ok _ =>
  match env.create_program_address [owner_mint_seed] program_id with
  | .error e => .error e
  | .ok program_state_account_key =>
  if program_state_account_key ≠ program_state_account.key then
    .error .invalidArgument
  else
  if ¬program_owner_account.is_signer then .error .invalidArgument
  else
  if program_state_account.owner ≠ program_id then .error .invalidArgument
  else
  match env.unpack_token_account program_owner_token_account.data with
  | .error e => .error e
  | .ok program_owner_token_account_data =>
  if program_owner_token_account_data.owner ≠ program_owner_account.key then
    .error .invalidArgument
  else
  match pubkey_from_str OWNER_TOKEN_MINT_ADDRESS with
  | some v =>
    if v ≠ program_owner_token_account_data.mint ∨
        program_owner_token_account_data.amount = 0 then
      .error .invalidArgument
    else
      match program_state_account.data.get? (LockGlobalState.LEN - 1) with
      | none => .error .panicked
      | some state_init_byte =>
      match (if ¬(state_init_byte == 1) then
               env.invoke_create_account
                 { funder := program_owner_account.key,
                   new_account := program_state_account_key,
                   lamports := env.rent_minimum_balance LockGlobalState.LEN,
                   space := LockGlobalState.LEN,
                   account_owner := program_id }
             else .ok ()) with
      | .error e => .error e
      | .ok _ =>
      match LockGlobalState.unpack program_state_account.data with
      | .error e => .error e
      | .ok program_state_data =>
        let new_state :=
          { program_state_data with
              price_estimator := price_estimator,
              usd_token_address := usd_token_address,
              fees_in_usd := fees_in_usd,
              company_wallet := company_wallet }
        .ok { new_state_data :=
                write_bytes program_state_account.data 0 new_state.pack_bytes }
  | none => .error .invalidArgument

/-- `Processor::process_set_fees_in_usd`. -/
def process_set_fees_in_usd (env : Env) (program_id : Pubkey)
    (program_owner_account program_owner_token_account
      program_state_account : AccountInfo) (fees_in_usd : Nat) :
    Except ProgErr AdminOk :=
  match env.create_program_address [owner_mint_seed] program_id with
  | .error e => .error e
  | .ok program_state_account_key =>
  if program_state_account_key ≠ program_state_account.key then
    .error .invalidArgument
  else
  if ¬program_owner_account.is_signer then .error .invalidArgument
  else
  if program_state_account.owner ≠ program_id then .error .invalidArgument
  else
  match env.unpack_token_account program_owner_token_account.data with
  | .error e => .error e
  | .ok program_owner_token_account_data =>
  if program_owner_token_account_data.owner ≠ program_owner_account.key then
    .error .invalidArgument
  else
  match pubkey_from_str OWNER_TOKEN_MINT_ADDRESS with
  | some v =>
    if v ≠ program_owner_token_account_data.mint ∨
        program_owner_token_account_data.amount = 0 then
      .error .invalidArgument
    else
      match program_state_account.data.get? (LockGlobalState.LEN - 1) with
      | none => .error .panicked
      | some state_init_byte =>
      if ¬(state_init_byte == 1) then .error .invalidArgument
      else
      match LockGlobalState.unpack program_state_account.data with
      | .error e => .error e
      | .ok program_state_data =>
        let new_state := { program_state_data with fees_in_usd := fees_in_usd }
        .ok { new_state_data :=
                write_bytes program_state_account.data 0 new_state.pack_bytes }
  | none => .error .invalidArgument

/-- `Processor::process_set_company_wallet`. -/
def process_set_company_wallet (env : Env) (program_id : Pubkey)
    (program_owner_account program_owner_token_account
      program_state_account : AccountInfo) (company_wallet : Pubkey) :
    Except ProgErr AdminOk :=
  match env.create_program_address [owner_mint_seed] program_id with
  | .error e => .error e
  | .ok program_state_account_key =>
  if program_state_account_key ≠ program_state_account.key then
    .error .invalidArgument
  else
  if ¬program_owner_account.is_signer then .error .invalidArgument
  else
  if program_state_account.owner ≠ program_id then .error .invalidArgument
  else
  match env.unpack_token_account program_owner_token_account.data with
  | .error e => .error e
  | .ok program_owner_token_account_data =>
  if program_owner_token_account_data.owner ≠ program_owner_account.key then
    .error .invalidArgument
  else
  match pubkey_from_str OWNER_TOKEN_MINT_ADDRESS with
  | some v =>
    if v ≠ program_owner_token_account_data.mint ∨
        program_owner_token_account_data.amount = 0 then
      .error .invalidArgument
    else
      match program_state_account.data.get? (LockGlobalState.LEN - 1) with
      | none => .error .panicked
      | some state_init_byte =>
      if ¬(state_init_byte == 1) then .error .invalidArgument
      else
      match LockGlobalState.unpack program_state_account.data with
      | .error e => .error e
      | .ok program_state_data =>
        let new_state :=
          { program_state_data with company_wallet := company_wallet }
        .ok { new_state_data :=
                write_bytes program_state_account.data 0 new_state.pack_bytes }
  | none => .error .invalidArgument

/-- `Processor::process_set_free_token`. -/
def process_set_free_token (env : Env) (program_id : Pubkey)
    (program_owner_account program_owner_token_account program_state_account
      token_state_account : AccountInfo) (mint_address : Pubkey)
    (is_free : Bool) : Except ProgErr AdminOk :=
  match env.create_program_address [owner_mint_seed] program_id with
  | .error e => .error e
  | .ok program_state_account_key =>
  if program_state_account_key ≠ program_state_account.key then
    .error .invalidArgument
  else
  if ¬program_owner_account.is_signer then .error .invalidArgument
  else
  if program_state_account.owner ≠ program_id then .error .invalidArgument
  else
  match env.unpack_token_account program_owner_token_account.data with
  | .error e => .error e
  | .ok program_owner_token_account_data =>
  if program_owner_token_account_data.owner ≠ program_owner_account.key then
    .error .invalidArgument
  else
  match pubkey_from_str OWNER_TOKEN_MINT_ADDRESS with
  | some v =>
    if v ≠ program_owner_token_account_data.mint ∨
        program_owner_token_account_data.amount = 0 then
      .error .invalidArgument
    else
      match program_state_account.data.get? (LockGlobalState.LEN - 1) with
      | none => .error .panicked
      | some state_init_byte =>
      if ¬(state_init_byte == 1) then .error .invalidArgument
      else
      match LockGlobalState.unpack
          (program_state_account.data.take LockGlobalState.LEN) with
      | .error e => .error e
      | .ok program_global_state =>
      if program_global_state.is_paused then .error .invalidArgument
      else
      match env.create_program_address [mint_address] program_id with
      | .error e => .error e
      | .ok token_state_account_key =>
      if token_state_account_key ≠ token_state_account.key then
        .error .invalidArgument
      else
      match TokenState.unpack token_state_account.data with
      | .error e => .error e
      | .ok token_state_data =>
      if token_state_data.mint_address ≠ mint_address then
        .error .invalidArgument
      else
        let new_state := { token_state_data with is_free := is_free }
        .ok { new_state_data :=
                write_bytes token_state_account.data 0 new_state.pack_bytes }
  | none => .error .invalidArgument

/-! ## Claim theorems -/

/-- Whether a call returned `Ok`. -/
def except_is_ok {α : Type} : Except ProgErr α → Bool
  | .ok _ => true
  | .error _ => false

set_option maxHeartbeats 1000000 in
/-- Claim C2: the credential-mint constant "Token address" never parses as a
base58 address, so every run of each of the five administrator-gated
setters ends in an error (for every environment, program id, accounts
and arguments) — no administrator setter can ever succeed, and the
run that reaches the credential check rejects with `InvalidArgument`
through the parse-failure branch. -/
theorem c2_admin_setters_never_succeed :
    pubkey_from_str OWNER_TOKEN_MINT_ADDRESS = none ∧
    (∀ env pid a b c x,
      except_is_ok (process_pause_contract env pid a b c x) = false) ∧
    (∀ env pid a b c d e pe usd fees cw,
      except_is_ok
        (process_set_fee_params env pid a b c d e pe usd fees cw) = false) ∧
    (∀ env pid a b c fees,
      except_is_ok (process_set_fees_in_usd env pid a b c fees) = false) ∧
    (∀ env pid a b c cw,
      except_is_ok (process_set_company_wallet env pid a b c cw) = false) ∧
    (∀ env pid a b c d mint f,
      except_is_ok (process_set_free_token env pid a b c d mint f) = false) := by
  refine ⟨pubkey_from_str_owner_mint_none, ?_, ?_, ?_, ?_, ?_⟩
  · intro env pid a b c x
    unfold process_pause_contract
    rw [pubkey_from_str_owner_mint_none]
    repeat' split
    all_goals first
      | rfl
      | contradiction
  · intro env pid a b c d e pe usd fees cw
    unfold process_set_fee_params
    rw [pubkey_from_str_owner_mint_none]
    repeat' split
    all_goals first
      | rfl
      | contradiction
  · intro env pid a b c fees
    unfold process_set_fees_in_usd
    rw [pubkey_from_str_owner_mint_none]
    repeat' split
    all_goals first
      | rfl
      | contradiction
  · intro env pid a b c cw
    unfold process_set_company_wallet
    rw [pubkey_from_str_owner_mint_none]
    repeat' split
    all_goals first
      | rfl
      | contradiction
  · intro env pid a b c d mint f
    unfold process_set_free_token
    rw [pubkey_from_str_owner_mint_none]
    repeat' split
    all_goals first
      | rfl
      | contradiction

theorem get?_at (l pre : List Nat) (x : Nat) (post : List Nat) (n : Nat)
    (hl : l = pre ++ (x :: post)) (hn : n = pre.length) : l.get? n = some x := by
  subst hl hn
  induction pre with
  | nil => rfl
  | cons a t ih => simpa using ih

theorem globalState_pack_get_init (c : LockGlobalState) (hw : wfGlobalState c) :
    (LockGlobalState.pack_bytes c).get? (LockGlobalState.LEN - 1) =
      some (boolByte c.is_initialized) := by
  obtain ⟨⟨h1, _⟩, ⟨h2, _⟩, _, ⟨h4, _⟩⟩ := hw
  apply get?_at _
    (c.price_estimator ++ c.usd_token_address ++ u64ToLe c.fees_in_usd ++
      c.company_wallet ++ [boolByte c.is_paused]) _ []
  · simp [LockGlobalState.pack_bytes]
  · simp [LockGlobalState.LEN, h1, h2, h4, u64ToLe, length_leBytes]

/-- Claim C8: the Create onboarding fee is computed from the token-fee record's
`is_free` flag alone — 0 when the flag is false, the flat 100 native
units when it is true — and `process_create` never consults the config's
price-estimator / usd-token / fees-in-usd fields: two configs that agree
only on `is_paused` and `is_initialized` give identical runs. -/
theorem c8_fee_ignores_oracle_fields :
    (∀ ts : TokenState,
      ts.estimate_fees_in_sol = .ok (if ts.is_free then 100 else 0)) ∧
    (∀ (env : Env) (pid : Pubkey)
      (spl psa la lta so sa tsa cw : AccountInfo) (seeds : List Nat)
      (mint dest : Pubkey) (schedules : List Schedule)
      (cfg1 cfg2 : LockGlobalState), wfGlobalState cfg1 → wfGlobalState cfg2 →
      cfg1.is_paused = cfg2.is_paused →
      cfg1.is_initialized = cfg2.is_initialized →
      process_create env pid spl { psa with data := cfg1.pack_bytes } la lta
        so sa tsa cw seeds mint dest schedules =
      process_create env pid spl { psa with data := cfg2.pack_bytes } la lta
        so sa tsa cw seeds mint dest schedules) := by
  constructor
  · intro ts
    unfold TokenState.estimate_fees_in_sol
    cases h : ts.is_free <;> simp [h]
  · intro env pid spl psa la lta so sa tsa cw seeds mint dest schedules
      cfg1 cfg2 hw1 hw2 hp hi
    unfold process_create
    cases hC : env.create_program_address [owner_mint_seed] pid with
    | error e => rfl
    | ok psk =>
      dsimp only
      by_cases hkey : psk ≠ psa.key
      · rw [if_pos hkey, if_pos hkey]
      · rw [if_neg hkey, if_neg hkey]
        rw [globalState_pack_get_init cfg1 hw1, globalState_pack_get_init cfg2 hw2]
        dsimp only
        cases hbi : cfg2.is_initialized with
        | false =>
            have hb1 : cfg1.is_initialized = false := hi.trans hbi
            rw [hb1]
            rfl
        | true =>
            have hb1 : cfg1.is_initialized = true := hi.trans hbi
            rw [hb1]
            have hu1 := globalState_full_unpack_pack hw1 hb1
            have hu2 := globalState_full_unpack_pack hw2 hbi
            simp only [boolByte, if_pos]
            rw [hu1, hu2]
            dsimp only
            rw [hp]

/-- Test environment used by concrete witnesses: program addresses are
the padded seed bytes, SPL token accounts decode with owner = the first
32 data bytes, amount = le bytes 32..40, mint = bytes 64..96, and every
invoked transfer succeeds. -/
def pad32 (l : List Nat) : Pubkey := (l ++ List.replicate 32 0).take 32

def env0 : Env where
  create_program_address := fun ss _ => .ok (pad32 ss.flatten)
  unpack_token_account := fun d =>
    .ok { mint := pad32 (d.drop 64), owner := pad32 d,
          amount := fromLeBytes ((d.drop 32).take 8), delegate := none,
          close_authority := none }
  rent_from_account := fun _ => .ok ()
  rent_minimum_balance := fun _ => 0
  spl_token_id := pad32 [9]
  clock_from_account := fun d => .ok (Int.ofNat (fromLeBytes d))
  invoke_sol_transfer := fun _ => .ok ()
  invoke_token_transfer := fun _ => .ok ()
  invoke_create_account := fun _ => .ok ()

def acc0 : AccountInfo where
  key := pad32 []
  is_signer := true
  owner := pad32 []
  data := []

def c8cfg1 : LockGlobalState where
  price_estimator := pad32 [1]
  usd_token_address := pad32 [2]
  fees_in_usd := 3
  company_wallet := pad32 [4]
  is_paused := false
  is_initialized := true

def c8cfg2 : LockGlobalState where
  price_estimator := pad32 [11]
  usd_token_address := pad32 [12]
  fees_in_usd := 13
  company_wallet := pad32 [4]
  is_paused := false
  is_initialized := true

/-- Witness for C8 at two concrete configs differing in all three
oracle/price fields. -/
theorem c8_fee_ignores_oracle_fields_witness :
    wfGlobalState c8cfg1 ∧ wfGlobalState c8cfg2 ∧
    c8cfg1.is_paused = c8cfg2.is_paused ∧
    c8cfg1.is_initialized = c8cfg2.is_initialized ∧
    ({ mint_address := pad32 [5], is_free := false,
       is_initialized := true : TokenState }.estimate_fees_in_sol =
      .ok (if ({ mint_address := pad32 [5], is_free := false,
                 is_initialized := true : TokenState }).is_free then 100
           else 0)) ∧
    process_create env0 (pad32 []) acc0 { acc0 with data := c8cfg1.pack_bytes }
      acc0 acc0 acc0 acc0 acc0 acc0 (List.replicate 32 7) (pad32 [5])
      (pad32 [6]) [] =
    process_create env0 (pad32 []) acc0 { acc0 with data := c8cfg2.pack_bytes }
      acc0 acc0 acc0 acc0 acc0 acc0 (List.replicate 32 7) (pad32 [5])
      (pad32 [6]) [] :=
  ⟨by decide, by decide, rfl, rfl,
    c8_fee_ignores_oracle_fields.1 _,
    c8_fee_ignores_oracle_fields.2 env0 (pad32 []) acc0 acc0 acc0 acc0 acc0
      acc0 acc0 acc0 (List.replicate 32 7) (pad32 [5]) (pad32 [6]) []
      c8cfg1 c8cfg2 (by decide) (by decide) rfl rfl⟩

theorem create_fill_loop_overflow (schedules : List Schedule)
    (data : List Nat) (offset total : Nat)
    (hwf : ∀ s ∈ schedules, s.amount < 2 ^ 64) (ht : total < 2 ^ 64)
    (hov : 2 ^ 64 ≤ total + (schedules.map Schedule.amount).sum) :
    create_fill_loop data offset total schedules =
      .error .invalidInstructionData := by
  induction schedules generalizing data offset total with
  | nil => simp at hov; omega
  | cons s rest ih =>
      simp only [create_fill_loop, checked_add_u64]
      by_cases hc : total + s.amount < 2 ^ 64
      · rw [if_pos hc]
        dsimp only
        apply ih
        · intro x hx; exact hwf x (by simp [hx])
        · exact hc
        · simp only [List.map_cons, List.sum_cons] at hov
          omega
      · rw [if_neg hc]

theorem create_fill_loop_ok (schedules : List Schedule) (data : List Nat)
    (offset total : Nat)
    (h : total + (schedules.map Schedule.amount).sum < 2 ^ 64) :
    ∃ d2, create_fill_loop data offset total schedules =
      .ok (d2, total + (schedules.map Schedule.amount).sum) := by
  induction schedules generalizing data offset total with
  | nil => exact ⟨data, by simp [create_fill_loop]⟩
  | cons s rest ih =>
      simp only [List.map_cons, List.sum_cons] at h ⊢
      have hstep : total + s.amount < 2 ^ 64 := by omega
      obtain ⟨d2, hd2⟩ := ih
        (write_bytes data offset (LockSchedule.pack_bytes
          { release_time := s.release_time, amount := s.amount }))
        (offset + SCHEDULE_SIZE) (total + s.amount) (by omega)
      refine ⟨d2, ?_⟩
      simp only [create_fill_loop, checked_add_u64, if_pos hstep, hd2]
      rw [Nat.add_assoc]

/-- Specification-side sum of the matured amounts (exact, no wrap), for
comparison with the code's wrapping accumulator. -/
def matured_amount_sum_spec (now : Nat) (scheds : List LockSchedule) : Nat :=
  ((scheds.filter fun s => s.release_time ≤ now).map LockSchedule.amount).sum

theorem unlock_sweep_total (now : Nat) (scheds : List LockSchedule)
    (total : Nat) (ht : total < 2 ^ 64) :
    (unlock_sweep now total scheds).1 =
      (total + matured_amount_sum_spec now scheds) % 2 ^ 64 := by
  induction scheds generalizing total with
  | nil =>
      simp only [unlock_sweep, matured_amount_sum_spec, List.filter_nil,
        List.map_nil, List.sum_nil, Nat.add_zero]
      exact (Nat.mod_eq_of_lt ht).symm
  | cons s rest ih =>
      by_cases h : now ≥ s.release_time
      · have h' : s.release_time ≤ now := h
        simp only [unlock_sweep, if_pos h]
        have hm : matured_amount_sum_spec now (s :: rest) =
            s.amount + matured_amount_sum_spec now rest := by
          simp [matured_amount_sum_spec, List.filter_cons, h']
        rw [ih _ (Nat.mod_lt _ (by norm_num)), hm, Nat.mod_add_mod]
        congr 1
        omega
      · have h' : ¬ s.release_time ≤ now := h
        simp only [unlock_sweep, if_neg h]
        have hm : matured_amount_sum_spec now (s :: rest) =
            matured_amount_sum_spec now rest := by
          simp [matured_amount_sum_spec, List.filter_cons, h']
        rw [ih _ ht, hm]

theorem unlock_sweep_entries (now total : Nat) (scheds : List LockSchedule) :
    (unlock_sweep now total scheds).2 =
      scheds.map fun s =>
        if s.release_time ≤ now then
          { release_time := s.release_time, amount := 0 }
        else s := by
  induction scheds generalizing total with
  | nil => rfl
  | cons s rest ih =>
      by_cases h : s.release_time ≤ now
      · simp only [unlock_sweep, if_pos (show now ≥ s.release_time from h),
          List.map_cons, if_pos h, ih]
      · simp only [unlock_sweep, if_neg (show ¬ now ≥ s.release_time from h),
          List.map_cons, if_neg h, ih]

/-- C3 amended: Create's funding-total loop reports `u64` overflow of the
running schedule-amount sum as an `InvalidInstructionData` error (and
returns the exact sum when no overflow occurs), while Unlock's
matured-amount accumulation is an unchecked `u64` addition whose result
is the exact matured sum reduced modulo `2 ^ 64` — on overflow it wraps
silently instead of reporting a data error. -/
theorem c3_create_sum_checked_unlock_sum_wraps :
    (∀ (schedules : List Schedule) (data : List Nat) (offset total : Nat),
      (∀ s ∈ schedules, s.amount < 2 ^ 64) → total < 2 ^ 64 →
      2 ^ 64 ≤ total + (schedules.map Schedule.amount).sum →
      create_fill_loop data offset total schedules =
        .error .invalidInstructionData) ∧
    (∀ (schedules : List Schedule) (data : List Nat) (offset total : Nat),
      total + (schedules.map Schedule.amount).sum < 2 ^ 64 →
      ∃ d2, create_fill_loop data offset total schedules =
        .ok (d2, total + (schedules.map Schedule.amount).sum)) ∧
    (∀ (now : Nat) (scheds : List LockSchedule) (total : Nat),
      total < 2 ^ 64 →
      (unlock_sweep now total scheds).1 =
        (total + matured_amount_sum_spec now scheds) % 2 ^ 64) :=
  ⟨create_fill_loop_overflow, create_fill_loop_ok, unlock_sweep_total⟩

/-- Witness for C3 at concrete inputs: two entries of `2 ^ 63` overflow
the Create loop into `InvalidInstructionData`; a 5-unit entry sums
exactly; the Unlock sweep of the two `2 ^ 63` entries plus a 5 at clock
10 wraps to 5. -/
theorem c3_create_sum_checked_unlock_sum_wraps_witness :
    create_fill_loop [] 0 0 [⟨0, 2 ^ 63⟩, ⟨0, 2 ^ 63⟩] =
      .error .invalidInstructionData ∧
    (∃ d2, create_fill_loop [] 0 0 [⟨0, 5⟩] =
      .ok (d2, 0 + ([(⟨0, 5⟩ : Schedule)].map Schedule.amount).sum)) ∧
    (unlock_sweep 10 0 [⟨0, 2 ^ 63⟩, ⟨0, 2 ^ 63⟩, ⟨0, 5⟩]).1 =
      (0 + matured_amount_sum_spec 10 [⟨0, 2 ^ 63⟩, ⟨0, 2 ^ 63⟩, ⟨0, 5⟩]) %
        2 ^ 64 :=
  ⟨c3_create_sum_checked_unlock_sum_wraps.1 _ [] 0 0 (by decide)
      (by norm_num) (by norm_num),
    c3_create_sum_checked_unlock_sum_wraps.2.1 _ [] 0 0 (by norm_num),
    c3_create_sum_checked_unlock_sum_wraps.2.2 10 _ 0 (by norm_num)⟩

def cx_pid : Pubkey := pad32 []

def cx_seeds : List Nat := List.replicate 32 7

def cx_cfg : LockGlobalState :=
  { price_estimator := pad32 [], usd_token_address := pad32 [],
    fees_in_usd := 0, company_wallet := pad32 [], is_paused := false,
    is_initialized := true }

def cx_state_acc : AccountInfo :=
  { key := pad32 owner_mint_seed, is_signer := false, owner := pad32 [],
    data := cx_cfg.pack_bytes }

def cx_header : LockScheduleHeader :=
  { destination_address := pad32 [5], mint_address := pad32 [8],
    is_initialized := true }

def cx_scheds : List LockSchedule := [⟨0, 2 ^ 63⟩, ⟨0, 2 ^ 63⟩, ⟨0, 5⟩]

def cx_locking_acc : AccountInfo :=
  { key := cx_seeds, is_signer := false, owner := cx_pid,
    data := cx_header.pack_bytes ++
      (cx_scheds.map LockSchedule.pack_bytes).flatten }

def cx_spl_acc : AccountInfo :=
  { key := pad32 [9], is_signer := false, owner := pad32 [], data := [] }

def cx_clock_acc : AccountInfo :=
  { key := pad32 [3], is_signer := false, owner := pad32 [], data := [10] }

def cx_ltok_acc : AccountInfo :=
  { key := pad32 [6], is_signer := false, owner := pad32 [],
    data := cx_seeds }

def cx_dest_acc : AccountInfo :=
  { key := pad32 [5], is_signer := false, owner := pad32 [], data := [] }

def cx_expected_data : List Nat :=
  write_bytes cx_locking_acc.data 65
    (([⟨0, 0⟩, ⟨0, 0⟩, ⟨0, 0⟩] : List LockSchedule).map
      LockSchedule.pack_bytes).flatten

def cx_expected_transfer : TokenTransfer :=
  { token_program := pad32 [9], source := pad32 [6], dest := pad32 [5],
    authority := cx_seeds, amount := 5 }

/-- Claim C3 counterexample: a concrete Unlock whose matured amounts sum to
`2 ^ 64 + 5` (past the maximal `u64`) is not rejected with any data
error — the unchecked sum wraps silently to 5 and the call succeeds,
transferring 5. -/
theorem c3_counterexample_unlock_overflow_silent :
    process_unlock env0 cx_pid cx_spl_acc cx_clock_acc cx_state_acc
      cx_locking_acc cx_ltok_acc cx_dest_acc cx_seeds =
      .ok { new_locking_data := cx_expected_data,
            token_transfer := cx_expected_transfer } ∧
    matured_amount_sum_spec 10 cx_scheds = 2 ^ 64 + 5 := by
  constructor
  · rfl
  · decide

/-- Committed locking-account bytes after a Create call: the host
discards all pending writes of a failed call. -/
def commit_locking_data (old : List Nat) : Except ProgErr CreateOk → List Nat
  | .ok r => r.new_locking_data
  | .error _ => old

set_option maxHeartbeats 1000000 in
/-- Claim C4: when a Create call passes every check before the schedule loop
but its schedule amounts sum past the maximal `u64`, the whole call is
rejected with `InvalidInstructionData` and the locking account's stored
bytes are unchanged (nothing is committed). -/
theorem c4_create_overflow_rejected (env : Env) (pid : Pubkey)
    (spl psa la lta so sa tsa cw : AccountInfo) (seeds : List Nat)
    (mint dest : Pubkey) (schedules : List Schedule) (cfg : LockGlobalState)
    (ltd : TokenAccount)
    (hw : wfGlobalState cfg) (hcfgi : cfg.is_initialized = true)
    (hcfgp : cfg.is_paused = false) (hpsa : psa.data = cfg.pack_bytes)
    (h1 : env.create_program_address [owner_mint_seed] pid = .ok psa.key)
    (h2 : env.create_program_address [seeds] pid = .ok la.key)
    (h3 : so.is_signer = true) (h4 : la.owner = pid)
    (h5 : la.data.get? (LockScheduleHeader.LEN - 1) = some 0)
    (h6 : env.unpack_token_account lta.data = .ok ltd)
    (h7 : ltd.owner = la.key) (h8 : ltd.delegate = none)
    (h9 : ltd.close_authority = none)
    (h10 : env.create_program_address [mint] pid = .ok tsa.key)
    (h11 : tsa.data.get? (TokenState.LEN - 1) = some 0)
    (h12 : ∀ t, env.invoke_sol_transfer t = .ok ())
    (h13 : la.data.length =
      LockScheduleHeader.LEN + schedules.length * LockSchedule.LEN)
    (hamt : ∀ s ∈ schedules, s.amount < 2 ^ 64)
    (hov : 2 ^ 64 ≤ (schedules.map Schedule.amount).sum) :
    process_create env pid spl psa la lta so sa tsa cw seeds mint dest
      schedules = .error .invalidInstructionData ∧
    commit_locking_data la.data (process_create env pid spl psa la lta so sa
      tsa cw seeds mint dest schedules) = la.data := by
  have hfill := create_fill_loop_overflow schedules
    (write_bytes la.data 0 (LockScheduleHeader.pack_bytes
      { destination_address := dest, mint_address := mint,
        is_initialized := true }))
    LockScheduleHeader.LEN 0 hamt (by norm_num) (by simpa using hov)
  have hts : create_token_state_read tsa.data 0 mint =
      .ok { mint_address := mint, is_free := false, is_initialized := false } := by
    simp [create_token_state_read]
  have hfee :
      TokenState.estimate_fees_in_sol
        { mint_address := mint, is_free := false, is_initialized := false } =
        .ok 0 := rfl
  have hmain : process_create env pid spl psa la lta so sa tsa cw seeds mint
      dest schedules = .error .invalidInstructionData := by
    unfold process_create
    rw [h1]
    try dsimp only
    rw [if_neg (by simp), hpsa, globalState_pack_get_init cfg hw, hcfgi]
    dsimp only [boolByte]
    rw [if_neg (by simp), globalState_full_unpack_pack hw hcfgi]
    try dsimp only
    rw [hcfgp, if_neg (by simp), h2]
    try dsimp only
    rw [if_neg (by simp), h3, if_neg (by simp), h4, if_neg (by simp), h5]
    try dsimp only
    rw [if_neg (by simp), h6]
    try dsimp only
    rw [h7, if_neg (by simp), h8]
    try dsimp only
    rw [if_neg (by simp), h9]
    try dsimp only
    rw [if_neg (by simp), h10]
    try dsimp only
    rw [if_neg (by simp), h11]
    try dsimp only
    rw [hts]
    try dsimp only
    rw [hfee]
    try dsimp only
    rw [h12]
    try dsimp only
    rw [h13, if_neg (by simp), hfill]
  exact ⟨hmain, by rw [hmain]; rfl⟩

def c4_la : AccountInfo :=
  { key := cx_seeds, is_signer := false, owner := cx_pid,
    data := List.replicate 97 0 }

def c4_lta : AccountInfo :=
  { key := pad32 [6], is_signer := false, owner := pad32 [],
    data := cx_seeds }

def c4_tsa : AccountInfo :=
  { key := pad32 [5], is_signer := false, owner := pad32 [],
    data := List.replicate 34 0 }

def c4_ltd : TokenAccount :=
  { mint := pad32 [], owner := cx_seeds, amount := 0, delegate := none,
    close_authority := none }

/-- Witness for C4 at a concrete Create whose two schedule amounts are
each `2 ^ 63` (their sum is exactly `2 ^ 64`). -/
theorem c4_create_overflow_rejected_witness :
    process_create env0 cx_pid acc0 cx_state_acc c4_la c4_lta acc0 acc0
      c4_tsa acc0 cx_seeds (pad32 [5]) (pad32 [6])
      [⟨0, 2 ^ 63⟩, ⟨0, 2 ^ 63⟩] = .error .invalidInstructionData ∧
    commit_locking_data c4_la.data
      (process_create env0 cx_pid acc0 cx_state_acc c4_la c4_lta acc0 acc0
        c4_tsa acc0 cx_seeds (pad32 [5]) (pad32 [6])
        [⟨0, 2 ^ 63⟩, ⟨0, 2 ^ 63⟩]) = c4_la.data :=
  c4_create_overflow_rejected env0 cx_pid acc0 cx_state_acc c4_la c4_lta
    acc0 acc0 c4_tsa acc0 cx_seeds (pad32 [5]) (pad32 [6])
    [⟨0, 2 ^ 63⟩, ⟨0, 2 ^ 63⟩] cx_cfg c4_ltd (by decide) rfl rfl rfl
    (by decide) (by decide) rfl rfl (by decide) (by decide) rfl rfl rfl
    (by decide) (by decide) (fun _ => rfl) (by decide) (by decide)
    (by decide)

set_option maxHeartbeats 1000000 in
/-- Claim C7: on a live entry (positive amount, as the `Pack::unpack` gate
requires) with every other check passing, ExtendLockDuration rejects a
requested `release_time` strictly below the entry's current one with
`InvalidArgument`, accepts any equal-or-greater value, and on success
rewrites exactly the entry's 16 bytes with the new release time and the
unchanged amount — all bytes before and after the entry keep their
values. -/
theorem c7_extend_monotonic_frame (env : Env) (pid : Pubkey)
    (psa la dta dto : AccountInfo) (seeds : List Nat)
    (index release_time : Nat) (cfg : LockGlobalState) (s : LockSchedule)
    (dtd : TokenAccount) (pre post : List Nat)
    (hw : wfGlobalState cfg) (hcfgi : cfg.is_initialized = true)
    (hcfgp : cfg.is_paused = false) (hpsa : psa.data = cfg.pack_bytes)
    (h1 : env.create_program_address [owner_mint_seed] pid = .ok psa.key)
    (h2 : env.create_program_address [seeds] pid = .ok la.key)
    (hdata : la.data = pre ++ (LockSchedule.pack_bytes s ++ post))
    (hpre : pre.length = LockScheduleHeader.LEN + LockSchedule.LEN * index)
    (hwfs : wfLockSchedule s) (hamt : 0 < s.amount)
    (hsign : dto.is_signer = true)
    (hdta : env.unpack_token_account dta.data = .ok dtd)
    (hown : dtd.owner = dto.key) :
    (release_time < s.release_time →
      process_extend_lock_duration env pid psa la dta dto seeds index
        release_time = .error .invalidArgument) ∧
    (s.release_time ≤ release_time →
      process_extend_lock_duration env pid psa la dta dto seeds index
        release_time =
        .ok { new_locking_data := pre ++
          (LockSchedule.pack_bytes
            { release_time := release_time, amount := s.amount } ++ post) }) := by
  have hlen : ¬(la.data.length <
      LockScheduleHeader.LEN + LockSchedule.LEN * (index + 1)) := by
    rw [hdata]
    simp only [List.length_append, lockSchedule_pack_length, hpre,
      LockSchedule.LEN]
    omega
  have hslice : (la.data.drop
      (LockScheduleHeader.LEN + LockSchedule.LEN * index)).take
      LockSchedule.LEN = LockSchedule.pack_bytes s := by
    have hd : la.data.drop (LockScheduleHeader.LEN + LockSchedule.LEN * index) =
        LockSchedule.pack_bytes s ++ post :=
      drop_at _ pre _ _ hdata hpre.symm
    rw [hd]
    exact take_at _ _ post _ rfl (lockSchedule_pack_length s).symm
  have hread : LockSchedule.unpack ((la.data.drop
      (LockScheduleHeader.LEN + LockSchedule.LEN * index)).take
      LockSchedule.LEN) = .ok s := by
    rw [hslice]
    exact lockSchedule_full_unpack_pack hwfs hamt
  have hwrite : ∀ rt : Nat, write_bytes la.data
      (LockScheduleHeader.LEN + LockSchedule.LEN * index)
      (LockSchedule.pack_bytes { release_time := rt, amount := s.amount }) =
      pre ++ (LockSchedule.pack_bytes { release_time := rt, amount := s.amount }
        ++ post) := by
    intro rt
    unfold write_bytes
    have ht : la.data.take (LockScheduleHeader.LEN + LockSchedule.LEN * index) =
        pre :=
      take_at _ pre _ _ hdata hpre.symm
    have hd : la.data.drop (LockScheduleHeader.LEN + LockSchedule.LEN * index +
        (LockSchedule.pack_bytes
          { release_time := rt, amount := s.amount }).length) = post := by
      apply drop_at _ (pre ++ LockSchedule.pack_bytes s) _ _
        (by rw [hdata]; simp [List.append_assoc])
      simp only [List.length_append, lockSchedule_pack_length, hpre]
    rw [ht, hd, List.append_assoc]
  constructor
  · intro hlt
    unfold process_extend_lock_duration
    rw [h1]
    try dsimp only
    rw [if_neg (by simp), hpsa, globalState_pack_get_init cfg hw, hcfgi]
    dsimp only [boolByte]
    rw [if_neg (by simp), globalState_full_unpack_pack hw hcfgi]
    try dsimp only
    rw [hcfgp, if_neg (by simp), if_neg hlen, h2]
    try dsimp only
    rw [hread]
    try dsimp only
    rw [if_neg (by simp), if_pos (show s.release_time > release_time from hlt)]
  · intro hge
    unfold process_extend_lock_duration
    rw [h1]
    try dsimp only
    rw [if_neg (by simp), hpsa, globalState_pack_get_init cfg hw, hcfgi]
    dsimp only [boolByte]
    rw [if_neg (by simp), globalState_full_unpack_pack hw hcfgi]
    try dsimp only
    rw [hcfgp, if_neg (by simp), if_neg hlen, h2]
    try dsimp only
    rw [hread]
    try dsimp only
    rw [if_neg (by simp), if_neg (by omega), hsign, if_neg (by simp), hdta]
    try dsimp only
    rw [hown, if_neg (by simp)]
    try dsimp only
    rw [hwrite release_time]

def c7_pre : List Nat :=
  cx_header.pack_bytes ++ LockSchedule.pack_bytes ⟨7, 3⟩

def c7_la : AccountInfo :=
  { key := cx_seeds, is_signer := false, owner := cx_pid,
    data := c7_pre ++ (LockSchedule.pack_bytes ⟨100, 50⟩ ++ []) }

/-- Witness for C7 at entry index 1 holding `(release_time 100,
amount 50)`: requesting 42 is rejected, requesting exactly 100 (the
inclusive boundary) succeeds and rewrites only that entry's bytes. -/
theorem c7_extend_monotonic_frame_witness :
    process_extend_lock_duration env0 cx_pid cx_state_acc c7_la acc0 acc0
      cx_seeds 1 42 = .error .invalidArgument ∧
    process_extend_lock_duration env0 cx_pid cx_state_acc c7_la acc0 acc0
      cx_seeds 1 100 =
      .ok { new_locking_data := c7_pre ++
        (LockSchedule.pack_bytes { release_time := 100, amount := 50 } ++
          []) } :=
  ⟨(c7_extend_monotonic_frame env0 cx_pid cx_state_acc c7_la acc0 acc0
      cx_seeds 1 42 cx_cfg ⟨100, 50⟩
      { mint := pad32 [], owner := pad32 [], amount := 0, delegate := none,
        close_authority := none } c7_pre [] (by decide) rfl rfl rfl
      (by decide) (by decide) rfl (by decide) (by decide) (by decide) rfl
      (by decide) rfl).1 (by decide),
    (c7_extend_monotonic_frame env0 cx_pid cx_state_acc c7_la acc0 acc0
      cx_seeds 1 100 cx_cfg ⟨100, 50⟩
      { mint := pad32 [], owner := pad32 [], amount := 0, delegate := none,
        close_authority := none } c7_pre [] (by decide) rfl rfl rfl
      (by decide) (by decide) rfl (by decide) (by decide) (by decide) rfl
      (by decide) rfl).2 (by decide)⟩

set_option maxHeartbeats 1000000 in
/-- Claim C9: with the config gate and every derivation check passing,
TransferLocks succeeds only when the owner of the current destination
token account is a signer — a non-signer call is rejected with
`InvalidArgument` — and on success it rewrites only the header's
`destination_address`: the mint bytes and initialization flag are
re-encoded unchanged, every schedule byte after the header keeps its
value, and no transfer is invoked. -/
theorem c9_transfer_locks_signer_frame (env : Env) (pid : Pubkey)
    (psa la dta dto nda : AccountInfo) (seeds : List Nat)
    (cfg : LockGlobalState) (hdr : LockScheduleHeader) (dtd : TokenAccount)
    (rest : List Nat)
    (hw : wfGlobalState cfg) (hcfgi : cfg.is_initialized = true)
    (hcfgp : cfg.is_paused = false) (hpsa : psa.data = cfg.pack_bytes)
    (h1 : env.create_program_address [owner_mint_seed] pid = .ok psa.key)
    (h2 : env.create_program_address [seeds] pid = .ok la.key)
    (hdata : la.data = LockScheduleHeader.pack_bytes hdr ++ rest)
    (hwh : wfHeader hdr) (hhi : hdr.is_initialized = true)
    (hdest : hdr.destination_address = dta.key)
    (hdta : env.unpack_token_account dta.data = .ok dtd)
    (hown : dtd.owner = dto.key) (hnda : nda.key.length = 32) :
    (dto.is_signer = false →
      process_transfer_locks env pid psa la dta dto nda seeds =
        .error .invalidArgument) ∧
    (dto.is_signer = true →
      process_transfer_locks env pid psa la dta dto nda seeds =
        .ok { new_locking_data :=
                LockScheduleHeader.pack_bytes
                  { hdr with destination_address := nda.key } ++ rest,
              token_transfers := [] }) := by
  have hlen : ¬(la.data.length < LockScheduleHeader.LEN) := by
    rw [hdata]
    simp only [List.length_append, header_pack_length hwh,
      LockScheduleHeader.LEN]
    omega
  have htake : la.data.take LockScheduleHeader.LEN =
      LockScheduleHeader.pack_bytes hdr :=
    take_at _ _ rest _ hdata (header_pack_length hwh).symm
  have hread : LockScheduleHeader.unpack
      (la.data.take LockScheduleHeader.LEN) = .ok hdr := by
    rw [htake]
    exact header_full_unpack_pack hwh hhi
  constructor
  · intro hns
    unfold process_transfer_locks
    rw [h1]
    try dsimp only
    rw [if_neg (by simp), hpsa, globalState_pack_get_init cfg hw, hcfgi]
    try dsimp only [boolByte]
    rw [if_neg (by simp), globalState_full_unpack_pack hw hcfgi]
    try dsimp only
    rw [hcfgp, if_neg (by simp), if_neg hlen, h2]
    try dsimp only
    rw [hread]
    try dsimp only
    rw [if_neg (by simp), hdest, if_neg (by simp), hns]
    try dsimp only
    rw [if_pos (by simp)]
  · intro hs
    unfold process_transfer_locks
    rw [h1]
    try dsimp only
    rw [if_neg (by simp), hpsa, globalState_pack_get_init cfg hw, hcfgi]
    try dsimp only [boolByte]
    rw [if_neg (by simp), globalState_full_unpack_pack hw hcfgi]
    try dsimp only
    rw [hcfgp, if_neg (by simp), if_neg hlen, h2]
    try dsimp only
    rw [hread]
    try dsimp only
    rw [if_neg (by simp), hdest, if_neg (by simp), hs, if_neg (by simp),
      hdta]
    try dsimp only
    rw [hown, if_neg (by simp)]
    try dsimp only
    unfold write_bytes
    have hlen65 : (LockScheduleHeader.pack_bytes
        { hdr with destination_address := nda.key }).length = 65 := by
      simp [LockScheduleHeader.pack_bytes, hnda, hwh.2.1]
    have hdrop : la.data.drop (0 + 65) = rest := by
      apply drop_at _ (LockScheduleHeader.pack_bytes hdr) _ _ hdata
      simp [header_pack_length hwh]
    rw [List.take_zero, hlen65, hdrop]
    simp

def acc0_nosign : AccountInfo :=
  { key := pad32 [], is_signer := false, owner := pad32 [], data := [] }

def c9_nda : AccountInfo :=
  { key := pad32 [13], is_signer := false, owner := pad32 [], data := [] }

def c9_dtd : TokenAccount :=
  { mint := pad32 [], owner := pad32 [], amount := 0, delegate := none,
    close_authority := none }

/-- Witness for C9 on the concrete contract: a non-signer owner is
rejected even though every derivation matches; the same call with the
signer flag set succeeds and rewrites only the destination. -/
theorem c9_transfer_locks_signer_frame_witness :
    process_transfer_locks env0 cx_pid cx_state_acc cx_locking_acc
      cx_dest_acc acc0_nosign c9_nda cx_seeds = .error .invalidArgument ∧
    process_transfer_locks env0 cx_pid cx_state_acc cx_locking_acc
      cx_dest_acc acc0 c9_nda cx_seeds =
      .ok { new_locking_data :=
              LockScheduleHeader.pack_bytes
                { cx_header with destination_address := c9_nda.key } ++
                (cx_scheds.map LockSchedule.pack_bytes).flatten,
            token_transfers := [] } :=
  ⟨(c9_transfer_locks_signer_frame env0 cx_pid cx_state_acc cx_locking_acc
      cx_dest_acc acc0_nosign c9_nda cx_seeds cx_cfg cx_header c9_dtd
      ((cx_scheds.map LockSchedule.pack_bytes).flatten) (by decide) rfl rfl
      rfl (by decide) (by decide) rfl (by decide) rfl rfl (by decide)
      rfl (by decide)).1 rfl,
    (c9_transfer_locks_signer_frame env0 cx_pid cx_state_acc cx_locking_acc
      cx_dest_acc acc0 c9_nda cx_seeds cx_cfg cx_header c9_dtd
      ((cx_scheds.map LockSchedule.pack_bytes).flatten) (by decide) rfl rfl
      rfl (by decide) (by decide) rfl (by decide) rfl rfl (by decide)
      rfl (by decide)).2 rfl⟩

theorem unlock_sweep_length (now total : Nat) (scheds : List LockSchedule) :
    (unlock_sweep now total scheds).2.length = scheds.length := by
  rw [unlock_sweep_entries]
  simp

theorem unlock_swept_wf (now total : Nat) (scheds : List LockSchedule)
    (h : ∀ s ∈ scheds, wfLockSchedule s) :
    ∀ s ∈ (unlock_sweep now total scheds).2, wfLockSchedule s := by
  rw [unlock_sweep_entries]
  intro s hs
  simp only [List.mem_map] at hs
  obtain ⟨x, hx, hfx⟩ := hs
  by_cases hm : x.release_time ≤ now
  · rw [if_pos hm] at hfx
    obtain ⟨h1, _⟩ := h x hx
    rw [← hfx]
    exact ⟨h1, by norm_num⟩
  · rw [if_neg hm] at hfx
    rw [← hfx]
    exact h x hx

theorem matured_sum_swept_zero (now total : Nat) (scheds : List LockSchedule) :
    matured_amount_sum_spec now ((unlock_sweep now total scheds).2) = 0 := by
  rw [unlock_sweep_entries]
  induction scheds with
  | nil => rfl
  | cons s rest ih =>
      by_cases hm : s.release_time ≤ now
      · simp only [List.map_cons, if_pos hm, matured_amount_sum_spec,
          List.filter_cons] at ih ⊢
        simp [hm, ih]
      · simp only [List.map_cons, if_neg hm, matured_amount_sum_spec,
          List.filter_cons] at ih ⊢
        simp [hm, ih]

set_option maxHeartbeats 1000000 in
/-- Characterization of a `process_unlock` run on a well-formed contract
whose checks all pass: the call reduces to the maturity sweep — reject
with `InvalidArgument` when the swept total is zero, otherwise transfer
exactly the total and persist the swept (zeroed) schedule bytes. -/
theorem process_unlock_run (env : Env) (pid : Pubkey)
    (spl clk psa la lta dta : AccountInfo) (seeds : List Nat)
    (cfg : LockGlobalState) (hdr : LockScheduleHeader)
    (scheds : List LockSchedule) (ld : TokenAccount) (ts : Int)
    (hw : wfGlobalState cfg) (hcfgi : cfg.is_initialized = true)
    (hcfgp : cfg.is_paused = false) (hpsa : psa.data = cfg.pack_bytes)
    (h1 : env.create_program_address [owner_mint_seed] pid = .ok psa.key)
    (h2 : env.create_program_address [seeds] pid = .ok la.key)
    (hspl : spl.key = env.spl_token_id)
    (hdata : la.data = LockScheduleHeader.pack_bytes hdr ++
      (scheds.map LockSchedule.pack_bytes).flatten)
    (hwh : wfHeader hdr) (hhi : hdr.is_initialized = true)
    (hdest : hdr.destination_address = dta.key)
    (hlta : env.unpack_token_account lta.data = .ok ld)
    (hlo : ld.owner = la.key)
    (hclk : env.clock_from_account clk.data = .ok ts)
    (hwfs : ∀ s ∈ scheds, wfLockSchedule s)
    (hinv : ∀ t, env.invoke_token_transfer t = .ok ()) :
    process_unlock env pid spl clk psa la lta dta seeds =
      if (unlock_sweep (i64_as_u64 ts) 0 scheds).1 = 0 then
        .error .invalidArgument
      else
        .ok { new_locking_data := LockScheduleHeader.pack_bytes hdr ++
                (((unlock_sweep (i64_as_u64 ts) 0 scheds).2.map
                  LockSchedule.pack_bytes).flatten),
              token_transfer := { token_program := spl.key,
                                  source := lta.key, dest := dta.key,
                                  authority := la.key,
                                  amount :=
                                    (unlock_sweep (i64_as_u64 ts) 0
                                      scheds).1 } } := by
  have hlen : ¬(la.data.length < LockScheduleHeader.LEN) := by
    rw [hdata]
    simp only [List.length_append, header_pack_length hwh,
      LockScheduleHeader.LEN]
    omega
  have htake : la.data.take LockScheduleHeader.LEN =
      LockScheduleHeader.pack_bytes hdr :=
    take_at _ _ _ _ hdata (header_pack_length hwh).symm
  have hread : LockScheduleHeader.unpack
      (la.data.take LockScheduleHeader.LEN) = .ok hdr := by
    rw [htake]
    exact header_full_unpack_pack hwh hhi
  have hdrop : la.data.drop LockScheduleHeader.LEN =
      (scheds.map LockSchedule.pack_bytes).flatten :=
    drop_at _ _ _ _ hdata (header_pack_length hwh).symm
  have hsched : unpack_schedules (la.data.drop LockScheduleHeader.LEN) =
      .ok scheds := by
    rw [hdrop]
    exact unpack_schedules_encodes scheds hwfs
  have hwrite : write_bytes la.data LockScheduleHeader.LEN
      (((unlock_sweep (i64_as_u64 ts) 0 scheds).2.map
        LockSchedule.pack_bytes).flatten) =
      LockScheduleHeader.pack_bytes hdr ++
        (((unlock_sweep (i64_as_u64 ts) 0 scheds).2.map
          LockSchedule.pack_bytes).flatten) := by
    unfold write_bytes
    have hblen : (((unlock_sweep (i64_as_u64 ts) 0 scheds).2.map
        LockSchedule.pack_bytes).flatten).length =
        16 * scheds.length := by
      rw [flatten_lockSchedule_length, unlock_sweep_length]
    have hdlen : la.data.length = 65 + 16 * scheds.length := by
      rw [hdata]
      simp only [List.length_append, header_pack_length hwh,
        flatten_lockSchedule_length]
    have hd2 : la.data.drop (LockScheduleHeader.LEN +
        (((unlock_sweep (i64_as_u64 ts) 0 scheds).2.map
          LockSchedule.pack_bytes).flatten).length) = [] := by
      apply List.drop_eq_nil_of_le
      rw [hblen, hdlen]
      simp [LockScheduleHeader.LEN]
    rw [htake, hd2]
    simp
  unfold process_unlock
  rw [h1]
  try dsimp only
  rw [if_neg (by simp), hpsa, globalState_pack_get_init cfg hw, hcfgi]
  try dsimp only [boolByte]
  rw [if_neg (by simp), globalState_full_unpack_pack hw hcfgi]
  try dsimp only
  rw [hcfgp, if_neg (by simp), h2]
  try dsimp only
  rw [if_neg (by simp), hspl, if_neg (by simp), if_neg hlen, hread]
  try dsimp only
  rw [hdest, if_neg (by simp), hlta]
  try dsimp only
  rw [hlo, if_neg (by simp), hclk]
  try dsimp only
  rw [hsched]
  try dsimp only
  by_cases hz : (unlock_sweep (i64_as_u64 ts) 0 scheds).1 = 0
  · rw [if_pos hz, if_pos hz]
  · rw [if_neg hz, if_neg hz, hinv]
    try dsimp only
    rw [hwrite]

set_option maxHeartbeats 1000000 in
/-- Claim C5: on a valid contract whose checks pass, Unlock (i) zeroes in place
exactly the entries whose `release_time` is less than or equal to the
clock (inclusive boundary) and leaves the others unchanged, (ii) rejects
with `InvalidArgument` when the swept total is zero, (iii) otherwise
transfers exactly the swept total and persists the zeroed entries, and
(iv) a second Unlock on the persisted state without the clock advancing
is rejected with `InvalidArgument`. -/
theorem c5_unlock_maturity_sweep (env : Env) (pid : Pubkey)
    (spl clk psa la lta dta : AccountInfo) (seeds : List Nat)
    (cfg : LockGlobalState) (hdr : LockScheduleHeader)
    (scheds : List LockSchedule) (ld : TokenAccount) (ts : Int)
    (hw : wfGlobalState cfg) (hcfgi : cfg.is_initialized = true)
    (hcfgp : cfg.is_paused = false) (hpsa : psa.data = cfg.pack_bytes)
    (h1 : env.create_program_address [owner_mint_seed] pid = .ok psa.key)
    (h2 : env.create_program_address [seeds] pid = .ok la.key)
    (hspl : spl.key = env.spl_token_id)
    (hdata : la.data = LockScheduleHeader.pack_bytes hdr ++
      (scheds.map LockSchedule.pack_bytes).flatten)
    (hwh : wfHeader hdr) (hhi : hdr.is_initialized = true)
    (hdest : hdr.destination_address = dta.key)
    (hlta : env.unpack_token_account lta.data = .ok ld)
    (hlo : ld.owner = la.key)
    (hclk : env.clock_from_account clk.data = .ok ts)
    (hwfs : ∀ s ∈ scheds, wfLockSchedule s)
    (hinv : ∀ t, env.invoke_token_transfer t = .ok ()) :
    ((unlock_sweep (i64_as_u64 ts) 0 scheds).2 =
      scheds.map fun s =>
        if s.release_time ≤ i64_as_u64 ts then
          { release_time := s.release_time, amount := 0 }
        else s) ∧
    ((unlock_sweep (i64_as_u64 ts) 0 scheds).1 = 0 →
      process_unlock env pid spl clk psa la lta dta seeds =
        .error .invalidArgument) ∧
    ((unlock_sweep (i64_as_u64 ts) 0 scheds).1 ≠ 0 →
      process_unlock env pid spl clk psa la lta dta seeds =
        .ok { new_locking_data := LockScheduleHeader.pack_bytes hdr ++
                (((unlock_sweep (i64_as_u64 ts) 0 scheds).2.map
                  LockSchedule.pack_bytes).flatten),
              token_transfer := { token_program := spl.key,
                                  source := lta.key, dest := dta.key,
                                  authority := la.key,
                                  amount :=
                                    (unlock_sweep (i64_as_u64 ts) 0
                                      scheds).1 } }) ∧
    ((unlock_sweep (i64_as_u64 ts) 0 scheds).1 ≠ 0 →
      process_unlock env pid spl clk psa
        { la with data := LockScheduleHeader.pack_bytes hdr ++
            (((unlock_sweep (i64_as_u64 ts) 0 scheds).2.map
              LockSchedule.pack_bytes).flatten) } lta dta seeds =
        .error .invalidArgument) := by
  have hrun := process_unlock_run env pid spl clk psa la lta dta seeds cfg
    hdr scheds ld ts hw hcfgi hcfgp hpsa h1 h2 hspl hdata hwh hhi hdest hlta
    hlo hclk hwfs hinv
  refine ⟨unlock_sweep_entries _ _ _, ?_, ?_, ?_⟩
  · intro h
    rw [hrun, if_pos h]
  · intro h
    rw [hrun, if_neg h]
  · intro h
    have hrun2 := process_unlock_run env pid spl clk psa
      { la with data := LockScheduleHeader.pack_bytes hdr ++
          (((unlock_sweep (i64_as_u64 ts) 0 scheds).2.map
            LockSchedule.pack_bytes).flatten) } lta dta seeds cfg hdr
      ((unlock_sweep (i64_as_u64 ts) 0 scheds).2) ld ts hw hcfgi hcfgp hpsa
      h1 h2 hspl rfl hwh hhi hdest hlta hlo hclk
      (unlock_swept_wf _ _ _ hwfs) hinv
    rw [hrun2, if_pos]
    rw [unlock_sweep_total _ _ _ (by norm_num), matured_sum_swept_zero]
    simp

def c5_scheds : List LockSchedule := [⟨0, 100⟩, ⟨20, 50⟩]

def c5_la : AccountInfo :=
  { key := cx_seeds, is_signer := false, owner := cx_pid,
    data := cx_header.pack_bytes ++
      (c5_scheds.map LockSchedule.pack_bytes).flatten }

def c5_ld : TokenAccount :=
  { mint := pad32 [], owner := cx_seeds, amount := 0, delegate := none,
    close_authority := none }

def c5b_scheds : List LockSchedule := [⟨20, 100⟩]

def c5b_la : AccountInfo :=
  { key := cx_seeds, is_signer := false, owner := cx_pid,
    data := cx_header.pack_bytes ++
      (c5b_scheds.map LockSchedule.pack_bytes).flatten }

/-- Witness for C5 at clock 10 over entries `(0, 100)` and `(20, 50)`
(only the first matures, transferring 100 and zeroing it; the immediate
second Unlock is rejected), and over the single not-yet-matured entry
`(20, 100)` (rejected with `InvalidArgument`). -/
theorem c5_unlock_maturity_sweep_witness :
    ((unlock_sweep (i64_as_u64 10) 0 c5_scheds).2 =
      c5_scheds.map fun s =>
        if s.release_time ≤ i64_as_u64 10 then
          { release_time := s.release_time, amount := 0 }
        else s) ∧
    process_unlock env0 cx_pid cx_spl_acc cx_clock_acc cx_state_acc c5_la
      cx_ltok_acc cx_dest_acc cx_seeds =
      .ok { new_locking_data := LockScheduleHeader.pack_bytes cx_header ++
              (((unlock_sweep (i64_as_u64 10) 0 c5_scheds).2.map
                LockSchedule.pack_bytes).flatten),
            token_transfer := { token_program := cx_spl_acc.key,
                                source := cx_ltok_acc.key,
                                dest := cx_dest_acc.key,
                                authority := c5_la.key,
                                amount :=
                                  (unlock_sweep (i64_as_u64 10) 0
                                    c5_scheds).1 } } ∧
    process_unlock env0 cx_pid cx_spl_acc cx_clock_acc cx_state_acc
      { c5_la with data := LockScheduleHeader.pack_bytes cx_header ++
          (((unlock_sweep (i64_as_u64 10) 0 c5_scheds).2.map
            LockSchedule.pack_bytes).flatten) } cx_ltok_acc cx_dest_acc
      cx_seeds = .error .invalidArgument ∧
    process_unlock env0 cx_pid cx_spl_acc cx_clock_acc cx_state_acc c5b_la
      cx_ltok_acc cx_dest_acc cx_seeds = .error .invalidArgument :=
  ⟨(c5_unlock_maturity_sweep env0 cx_pid cx_spl_acc cx_clock_acc
      cx_state_acc c5_la cx_ltok_acc cx_dest_acc cx_seeds cx_cfg cx_header
      c5_scheds c5_ld 10 (by decide) rfl rfl rfl (by decide) (by decide)
      rfl rfl (by decide) rfl rfl (by decide) rfl (by decide) (by decide)
      (fun _ => rfl)).1,
    (c5_unlock_maturity_sweep env0 cx_pid cx_spl_acc cx_clock_acc
      cx_state_acc c5_la cx_ltok_acc cx_dest_acc cx_seeds cx_cfg cx_header
      c5_scheds c5_ld 10 (by decide) rfl rfl rfl (by decide) (by decide)
      rfl rfl (by decide) rfl rfl (by decide) rfl (by decide) (by decide)
      (fun _ => rfl)).2.2.1 (by decide),
    (c5_unlock_maturity_sweep env0 cx_pid cx_spl_acc cx_clock_acc
      cx_state_acc c5_la cx_ltok_acc cx_dest_acc cx_seeds cx_cfg cx_header
      c5_scheds c5_ld 10 (by decide) rfl rfl rfl (by decide) (by decide)
      rfl rfl (by decide) rfl rfl (by decide) rfl (by decide) (by decide)
      (fun _ => rfl)).2.2.2 (by decide),
    (c5_unlock_maturity_sweep env0 cx_pid cx_spl_acc cx_clock_acc
      cx_state_acc c5b_la cx_ltok_acc cx_dest_acc cx_seeds cx_cfg cx_header
      c5b_scheds c5_ld 10 (by decide) rfl rfl rfl (by decide) (by decide)
      rfl rfl (by decide) rfl rfl (by decide) rfl (by decide) (by decide)
      (fun _ => rfl)).2.1 (by decide)⟩

def c7z_la : AccountInfo :=
  { key := cx_seeds, is_signer := false, owner := cx_pid,
    data := cx_header.pack_bytes ++ (LockSchedule.pack_bytes ⟨100, 0⟩ ++ []) }

/-- Claim C7 counterexample: on an entry whose amount is zero (already
swept), requesting `release_time = 200`, greater than the entry's
current 100, is not accepted: the `Pack::unpack` `IsInitialized` gate
(`amount > 0`) rejects the call with `UninitializedAccount` before the
monotonicity check. -/
theorem c7_counterexample_zero_amount_entry :
    process_extend_lock_duration env0 cx_pid cx_state_acc c7z_la acc0 acc0
      cx_seeds 0 200 = .error .uninitializedAccount := by
  decide
